import Mathlib

/-!
# Verification of the raysouz deployment orchestration engine

This file gives a shallow embedding, in Lean 4, of the deployment
orchestration and reconciliation engine of the `terraform-provider-raysouz`
repository, and proves (or refutes) the specification claims about it.

The embedding follows the Go source:

* `provider/internal/repository/aws_lambda_repository.go` (Lambda repository)
* the APIGW repository (`APIGWRepository`: `GetRootResourceID`, `EnsurePath`,
  `PutMethodAndIntegration`, `DeployAPI`, `DeleteMethod`, `DeleteResources`,
  `findResourceByPath`)
* the CloudWatch Logs repository (`CWLogsRepository`:
  `CreateLogGroupIfNotExists`, `DeleteLogGroup`, `retry`, `isAPIErrorCode`)
* the IAM repository (`IAMRepository`)
* `provider/internal/service/aws_apigw_service.go` (`APIGatewayService`)
* `provider/internal/service/aws_cwlogs_service.go` (`CWLogsService`)
* the IAM service (`IAMService`)
* `provider/internal/service/aws_lambda_deployment_service.go`
  (`LambdaDeploymentService`: `EnsureDeployment`, `DeleteDeployment`)

Modelling decisions:

* Go errors are represented by `GoErr` (their message string); the source
  classifies errors by `strings.Contains` on the message, embedded as
  `goContains`.  `fmt.Errorf("...: %w", err)` is `wrapErr`, which keeps the
  wrapped message as a suffix, so substring tests behave as in Go.
* The remote AWS services are modelled by a deterministic `World` record.
  Every low-level SDK call (`aws...` definitions) consumes and produces a
  `World` and also emits an `Op` describing the remote call that was made;
  every embedded Go function therefore returns `(result, World, List Op)`.
  The `World` also carries fault injections (`waiterFails`,
  `vanishDuringWait`, `getFunctionFails`, `deleteResourceFail`) standing for
  remote behaviours that are not a function of the recorded state.
* Go maps are modelled as association lists in insertion order
  (`mapSet`/`mapGet`), a deterministic refinement of Go's map semantics.
* A Go panic is modelled by `Option`: a function whose Go body can panic
  returns `none` in exactly the panicking executions.  In particular
  `isAPIErrorCode` declares `var apiErr smithy.APIError` — a nil interface
  value — and calls `apiErr.ErrorCode()` on it, which panics at runtime for
  every non-nil input error; that nil-interface method call is modelled by
  `APIErrorVal.errorCode` applied to the zero value `nilAPIError = none`.
-/

/-- A Go `error` value, identified by its message (the source only ever
inspects `err.Error()` via `strings.Contains`). -/
structure GoErr where
  msg : String
deriving Repr, DecidableEq

/-- Whether `sub` is a leading run of `s` (character lists). -/
def listStarts (sub s : List Char) : Bool :=
  match sub, s with
  | [], _ => true
  | _ :: _, [] => false
  | a :: as, b :: bs => a = b && listStarts as bs

/-- Whether `sub` occurs contiguously inside `s` (character lists). -/
def listHasSub (s sub : List Char) : Bool :=
  match s with
  | [] => listStarts sub []
  | c :: rest => listStarts sub (c :: rest) || listHasSub rest sub

/-- `strings.Contains s sub` from the Go standard library. -/
def goContains (s sub : String) : Bool :=
  listHasSub s.toList sub.toList

/-- `fmt.Errorf("<pre>%w", err)`: wrapping keeps the original message as a
suffix of the new message. -/
def wrapErr (pre : String) (e : GoErr) : GoErr :=
  ⟨pre ++ e.msg⟩

/-- Association-list update, matching Go's `m[k] = v`: replace the binding
in place if the key is present, otherwise append it. -/
def mapSet {β : Type} (m : List (String × β)) (k : String) (v : β) :
    List (String × β) :=
  match m with
  | [] => [(k, v)]
  | (k', v') :: rest =>
      if k' = k then (k, v) :: rest else (k', v') :: mapSet rest k v

/-- Association-list lookup, matching Go's `m[k]`. -/
def mapGet {β : Type} (m : List (String × β)) (k : String) : Option β :=
  match m with
  | [] => none
  | (k', v') :: rest => if k' = k then some v' else mapGet rest k

/-- `pkg/types.ResourceInfo`: remote id plus leaf path part of one APIGW
path resource. -/
structure ResourceInfo where
  ResourceID : String
  PathPart : String
deriving Repr, DecidableEq

/-- `pkg/types.RouteConfig`: one declared route. -/
structure RouteConfig where
  Path : String
  Method : String
  Authorization : String
  AuthorizerID : String
deriving Repr, DecidableEq

/-- `pkg/types.RouteState`: a route after successful binding. -/
structure RouteState where
  Path : String
  Method : String
  Authorization : String
  AuthorizerID : String
  ResourceID : String
deriving Repr, DecidableEq

/-- `pkg/types.APIGWState`. -/
structure APIGWState where
  APIGatewayID : String
  StageName : String
  Routes : List RouteState
  Resources : List (String × ResourceInfo)
deriving Repr, DecidableEq

/-- `pkg/types.LambdaConfig`. -/
structure LambdaConfig where
  FunctionName : String
  Runtime : String
  Handler : String
  ZipPath : String
  MemorySize : Int
  Timeout : Int
  PolicyARNs : List String
  Environment : List (String × String)
deriving Repr, DecidableEq

/-- `pkg/types.ResourceState`: the persisted deployment record. -/
structure ResourceState where
  RoleName : String
  FunctionName : String
  FunctionArn : Option String
  APIGatewayID : String
  StageName : String
  Routes : List RouteState
  LogGroup : String
  Resources : List (String × ResourceInfo)
  AttachedPolicyARNs : List String
deriving Repr, DecidableEq

/-- One remote call (or local wait / file read) performed by the engine.
The payloads are the arguments of the corresponding SDK call. -/
inductive Op where
  | opGetRole (roleName : String)
  | opCreateRole (roleName : String)
  | opAttachRolePolicy (roleName policyArn : String)
  | opDetachRolePolicy (roleName policyArn : String)
  | opDeleteRole (roleName : String)
  | opSleep (ms : Nat)
  | opReadFile (path : String)
  | opGetFunction (functionName : String)
  | opCreateFunction (functionName : String)
  | opUpdateFunctionConfiguration (functionName : String)
  | opUpdateFunctionCode (functionName : String)
  | opWaiterWait (functionName : String)
  | opAddPermission (functionName statementId : String)
  | opRemovePermission (functionName statementId : String)
  | opDeleteFunction (functionName : String)
  | opCreateLogGroup (name : String)
  | opPutRetentionPolicy (name : String) (days : Int)
  | opDeleteLogGroup (name : String)
  | opGetResources (apiID : String)
  | opCreateResource (apiID parentID part : String)
  | opPutMethod (apiID resourceID httpMethod : String)
      (authorizerId : Option String)
  | opPutIntegration (apiID resourceID httpMethod : String)
  | opPutMethodResponse (apiID resourceID httpMethod : String)
  | opPutIntegrationResponse (apiID resourceID httpMethod : String)
  | opCreateDeployment (apiID stageName : String)
  | opDeleteMethod (apiID resourceID httpMethod : String)
  | opDeleteResource (apiID resourceID : String)
deriving Repr, DecidableEq

/-- One APIGW path resource known to the remote gateway. -/
structure ResEntry where
  id : String
  path : String
deriving Repr, DecidableEq

/-- The modelled remote environment: the state of the AWS account (one
gateway), plus fault injections for remote behaviours that are not a
function of that state. -/
structure World where
  roles : List String
  rolePolicies : List (String × String)
  functions : List (String × String)
  permissions : List (String × String)
  logGroups : List String
  logRetention : List (String × Int)
  gwResources : List ResEntry
  gwMethods : List (String × String)
  deployCount : Nat
  nextId : Nat
  files : List String
  waiterFails : List String
  vanishDuringWait : List String
  getFunctionFails : List String
  deleteResourceFail : List (String × String)
deriving Repr, DecidableEq

/-- The deterministic role ARN the modelled IAM service assigns. -/
def mkRoleArn (roleName : String) : String :=
  "arn:aws:iam::123456789012:role/" ++ roleName

/-- The deterministic function ARN the modelled Lambda service assigns. -/
def mkFunctionArn (functionName : String) : String :=
  "arn:aws:lambda:us-east-1:123456789012:function:" ++ functionName

/-- An IAM role as returned by `iam.GetRole` / `iam.CreateRole`. -/
structure IAMRole where
  name : String
  Arn : String
deriving Repr, DecidableEq

/-- A Lambda function configuration as returned by `lambda.GetFunction`. -/
structure FunctionConfiguration where
  FunctionName : String
  FunctionArn : String
deriving Repr, DecidableEq

/-- Remote `iam.GetRole`. -/
def awsIamGetRole (roleName : String) (w : World) :
    (Option IAMRole × Option GoErr) × World × List Op :=
  (if roleName ∈ w.roles then (some ⟨roleName, mkRoleArn roleName⟩, none)
   else (none, some ⟨"NoSuchEntity: the role cannot be found"⟩),
   w, [.opGetRole roleName])

/-- Remote `iam.CreateRole` (the trust policy is fixed in the source and is
not part of the modelled state). -/
def awsIamCreateRole (roleName : String) (w : World) :
    (Option IAMRole × Option GoErr) × World × List Op :=
  if roleName ∈ w.roles then
    ((none, some ⟨"EntityAlreadyExists: role exists"⟩), w,
     [.opCreateRole roleName])
  else
    ((some ⟨roleName, mkRoleArn roleName⟩, none),
     { w with roles := w.roles ++ [roleName] }, [.opCreateRole roleName])

/-- Remote `iam.AttachRolePolicy` (idempotent in the modelled service). -/
def awsIamAttachRolePolicy (roleName policyArn : String) (w : World) :
    Option GoErr × World × List Op :=
  if (roleName, policyArn) ∈ w.rolePolicies then
    (none, w, [.opAttachRolePolicy roleName policyArn])
  else
    (none, { w with rolePolicies := w.rolePolicies ++ [(roleName, policyArn)] },
     [.opAttachRolePolicy roleName policyArn])

/-- Remote `iam.DetachRolePolicy`. -/
def awsIamDetachRolePolicy (roleName policyArn : String) (w : World) :
    Option GoErr × World × List Op :=
  if (roleName, policyArn) ∈ w.rolePolicies then
    (none,
     { w with rolePolicies := w.rolePolicies.filter (· ≠ (roleName, policyArn)) },
     [.opDetachRolePolicy roleName policyArn])
  else
    (some ⟨"NoSuchEntity: policy not attached"⟩, w,
     [.opDetachRolePolicy roleName policyArn])

/-- Remote `iam.DeleteRole`. -/
def awsIamDeleteRole (roleName : String) (w : World) :
    Option GoErr × World × List Op :=
  if roleName ∈ w.roles then
    (none, { w with roles := w.roles.filter (· ≠ roleName) },
     [.opDeleteRole roleName])
  else
    (some ⟨"NoSuchEntity: the role cannot be found"⟩, w,
     [.opDeleteRole roleName])

/-- Remote `lambda.GetFunction`.  `getFunctionFails` injects a terminal
(non-NotFound) remote failure. -/
def awsLambdaGetFunction (functionName : String) (w : World) :
    (Option FunctionConfiguration × Option GoErr) × World × List Op :=
  if functionName ∈ w.getFunctionFails then
    ((none, some ⟨"ThrottlingException: rate exceeded"⟩), w,
     [.opGetFunction functionName])
  else
    match mapGet w.functions functionName with
    | some arn => ((some ⟨functionName, arn⟩, none), w,
                   [.opGetFunction functionName])
    | none => ((none, some ⟨"ResourceNotFoundException: function not found"⟩),
               w, [.opGetFunction functionName])

/-- Remote `lambda.CreateFunction`. -/
def awsLambdaCreateFunction (functionName : String) (w : World) :
    (Option FunctionConfiguration × Option GoErr) × World × List Op :=
  match mapGet w.functions functionName with
  | some _ => ((none, some ⟨"ResourceConflictException: function exists"⟩), w,
               [.opCreateFunction functionName])
  | none =>
      ((some ⟨functionName, mkFunctionArn functionName⟩, none),
       { w with functions :=
           mapSet w.functions functionName (mkFunctionArn functionName) },
       [.opCreateFunction functionName])

/-- Remote `lambda.UpdateFunctionConfiguration`. -/
def awsLambdaUpdateFunctionConfiguration (functionName : String) (w : World) :
    Option GoErr × World × List Op :=
  match mapGet w.functions functionName with
  | some _ => (none, w, [.opUpdateFunctionConfiguration functionName])
  | none => (some ⟨"ResourceNotFoundException: function not found"⟩, w,
             [.opUpdateFunctionConfiguration functionName])

/-- Remote `lambda.UpdateFunctionCode`. -/
def awsLambdaUpdateFunctionCode (functionName : String) (w : World) :
    Option GoErr × World × List Op :=
  match mapGet w.functions functionName with
  | some _ => (none, w, [.opUpdateFunctionCode functionName])
  | none => (some ⟨"ResourceNotFoundException: function not found"⟩, w,
             [.opUpdateFunctionCode functionName])

/-- Remote `lambda.NewFunctionActiveWaiter(...).Wait`: the injected
`waiterFails` names time out; the injected `vanishDuringWait` names are
removed out-of-band while the waiter runs. -/
def awsLambdaWaiterWait (functionName : String) (w : World) :
    Option GoErr × World × List Op :=
  let w' := if functionName ∈ w.vanishDuringWait then
    { w with functions := w.functions.filter (·.1 ≠ functionName) }
  else w
  if functionName ∈ w.waiterFails then
    (some ⟨"exceeded max wait time for FunctionActive waiter"⟩, w',
     [.opWaiterWait functionName])
  else (none, w', [.opWaiterWait functionName])

/-- Remote `lambda.AddPermission`. -/
def awsLambdaAddPermission (functionName statementId : String) (w : World) :
    Option GoErr × World × List Op :=
  if (functionName, statementId) ∈ w.permissions then
    (some ⟨"ResourceConflictException: statement already exists"⟩, w,
     [.opAddPermission functionName statementId])
  else
    (none,
     { w with permissions := w.permissions ++ [(functionName, statementId)] },
     [.opAddPermission functionName statementId])

/-- Remote `lambda.RemovePermission`. -/
def awsLambdaRemovePermission (functionName statementId : String) (w : World) :
    Option GoErr × World × List Op :=
  if (functionName, statementId) ∈ w.permissions then
    (none,
     { w with permissions :=
         w.permissions.filter (· ≠ (functionName, statementId)) },
     [.opRemovePermission functionName statementId])
  else
    (some ⟨"ResourceNotFoundException: statement not found"⟩, w,
     [.opRemovePermission functionName statementId])

/-- Remote `lambda.DeleteFunction`. -/
def awsLambdaDeleteFunction (functionName : String) (w : World) :
    Option GoErr × World × List Op :=
  match mapGet w.functions functionName with
  | some _ => (none, { w with functions := w.functions.filter (·.1 ≠ functionName) },
               [.opDeleteFunction functionName])
  | none => (some ⟨"ResourceNotFoundException: function not found"⟩, w,
             [.opDeleteFunction functionName])

/-- `os.ReadFile`: succeeds exactly on the readable paths of the world; the
contents are not needed by any claim and are not modelled. -/
def osReadFile (path : String) (w : World) :
    Option GoErr × World × List Op :=
  if path ∈ w.files then (none, w, [.opReadFile path])
  else (some ⟨"open " ++ path ++ ": no such file or directory"⟩, w,
        [.opReadFile path])

/-- Remote `cloudwatchlogs.CreateLogGroup`. -/
def awsCwCreateLogGroup (name : String) (w : World) :
    Option GoErr × World × List Op :=
  if name ∈ w.logGroups then
    (some ⟨"ResourceAlreadyExistsException: log group already exists"⟩, w,
     [.opCreateLogGroup name])
  else (none, { w with logGroups := w.logGroups ++ [name] },
        [.opCreateLogGroup name])

/-- Remote `cloudwatchlogs.PutRetentionPolicy`. -/
def awsCwPutRetentionPolicy (name : String) (days : Int) (w : World) :
    Option GoErr × World × List Op :=
  if name ∈ w.logGroups then
    (none, { w with logRetention := mapSet w.logRetention name days },
     [.opPutRetentionPolicy name days])
  else (some ⟨"ResourceNotFoundException: log group not found"⟩, w,
        [.opPutRetentionPolicy name days])

/-- Remote `cloudwatchlogs.DeleteLogGroup`. -/
def awsCwDeleteLogGroup (name : String) (w : World) :
    Option GoErr × World × List Op :=
  if name ∈ w.logGroups then
    (none, { w with logGroups := w.logGroups.filter (· ≠ name) },
     [.opDeleteLogGroup name])
  else (some ⟨"ResourceNotFoundException: log group not found"⟩, w,
        [.opDeleteLogGroup name])

/-- Remote `apigateway.GetResources` (the model holds a single gateway, so
the `apiID` argument selects nothing). -/
def awsApigwGetResources (apiID : String) (w : World) :
    (List ResEntry × Option GoErr) × World × List Op :=
  ((w.gwResources, none), w, [.opGetResources apiID])

/-- Remote `apigateway.CreateResource`: creates a child of `parentID` named
`part`; conflicts if a resource with the resulting path already exists. -/
def awsApigwCreateResource (apiID parentID part : String) (w : World) :
    (Option ResEntry × Option GoErr) × World × List Op :=
  match (w.gwResources.filter (·.id = parentID)).head? with
  | none => ((none, some ⟨"NotFoundException: invalid resource identifier"⟩),
             w, [.opCreateResource apiID parentID part])
  | some parent =>
      let childPath := if parent.path = "/" then "/" ++ part
                       else parent.path ++ "/" ++ part
      if (w.gwResources.filter (·.path = childPath)) ≠ [] then
        ((none, some ⟨"ConflictException: resource already exists"⟩), w,
         [.opCreateResource apiID parentID part])
      else
        let entry : ResEntry := ⟨"res-" ++ toString w.nextId, childPath⟩
        ((some entry, none),
         { w with gwResources := w.gwResources ++ [entry],
                  nextId := w.nextId + 1 },
         [.opCreateResource apiID parentID part])

/-- Remote `apigateway.PutMethod` (an idempotent put in the modelled
service; the emitted op records whether an authorizer id was attached). -/
def awsApigwPutMethod (apiID resourceID httpMethod : String)
    (authorizerId : Option String) (w : World) :
    Option GoErr × World × List Op :=
  (none,
   { w with gwMethods :=
       if (resourceID, httpMethod) ∈ w.gwMethods then w.gwMethods
       else w.gwMethods ++ [(resourceID, httpMethod)] },
   [.opPutMethod apiID resourceID httpMethod authorizerId])

/-- Remote `apigateway.PutIntegration`. -/
def awsApigwPutIntegration (apiID resourceID httpMethod : String) (w : World) :
    Option GoErr × World × List Op :=
  (none, w, [.opPutIntegration apiID resourceID httpMethod])

/-- Remote `apigateway.PutMethodResponse`. -/
def awsApigwPutMethodResponse (apiID resourceID httpMethod : String)
    (w : World) : Option GoErr × World × List Op :=
  (none, w, [.opPutMethodResponse apiID resourceID httpMethod])

/-- Remote `apigateway.PutIntegrationResponse`. -/
def awsApigwPutIntegrationResponse (apiID resourceID httpMethod : String)
    (w : World) : Option GoErr × World × List Op :=
  (none, w, [.opPutIntegrationResponse apiID resourceID httpMethod])

/-- Remote `apigateway.CreateDeployment`. -/
def awsApigwCreateDeployment (apiID stageName : String) (w : World) :
    Option GoErr × World × List Op :=
  (none, { w with deployCount := w.deployCount + 1 },
   [.opCreateDeployment apiID stageName])

/-- Remote `apigateway.DeleteMethod`. -/
def awsApigwDeleteMethod (apiID resourceID httpMethod : String) (w : World) :
    Option GoErr × World × List Op :=
  if (resourceID, httpMethod) ∈ w.gwMethods then
    (none,
     { w with gwMethods := w.gwMethods.filter (· ≠ (resourceID, httpMethod)) },
     [.opDeleteMethod apiID resourceID httpMethod])
  else
    (some ⟨"NotFoundException: method not found"⟩, w,
     [.opDeleteMethod apiID resourceID httpMethod])

/-- Remote `apigateway.DeleteResource`.  `deleteResourceFail` injects a
non-NotFound remote failure for the given resource ids. -/
def awsApigwDeleteResource (apiID resourceID : String) (w : World) :
    Option GoErr × World × List Op :=
  match mapGet w.deleteResourceFail resourceID with
  | some m => (some ⟨m⟩, w, [.opDeleteResource apiID resourceID])
  | none =>
      if (w.gwResources.filter (·.id = resourceID)) ≠ [] then
        (none,
         { w with gwResources := w.gwResources.filter (·.id ≠ resourceID) },
         [.opDeleteResource apiID resourceID])
      else
        (some ⟨"NotFoundException: resource not found"⟩, w,
         [.opDeleteResource apiID resourceID])

/-! ## IAM repository (`IAMRepository`) -/

/-- `IAMRepository.GetRole`: `NoSuchEntity` is mapped to "absent". -/
def GetRole (roleName : String) (w : World) :
    (Option IAMRole × Option GoErr) × World × List Op :=
  match awsIamGetRole roleName w with
  | ((out, err), w1, t1) =>
      match err with
      | some e =>
          if goContains e.msg "NoSuchEntity" then ((none, none), w1, t1)
          else ((none, some (wrapErr "GetRole failed: " e)), w1, t1)
      | none => ((out, none), w1, t1)

/-- `IAMRepository.CreateRole`: an `EntityAlreadyExists` race is resolved by
re-fetching the role. -/
def CreateRole (roleName : String) (w : World) :
    (Option String × Option GoErr) × World × List Op :=
  match awsIamCreateRole roleName w with
  | ((cr, cerr), w1, t1) =>
      match cerr with
      | some e =>
          if goContains e.msg "EntityAlreadyExists" then
            match GetRole roleName w1 with
            | ((r, _), w2, t2) =>
                match r with
                | some role => ((some role.Arn, none), w2, t1 ++ t2)
                | none => ((none, some e), w2, t1 ++ t2)
          else ((none, some e), w1, t1)
      | none =>
          match cr with
          | some role => ((some role.Arn, none), w1, t1)
          | none => ((none, some ⟨"created role unavailable"⟩), w1, t1)

/-- `IAMRepository.AttachPolicy`: `EntityAlreadyExists` is tolerated. -/
def AttachPolicy (roleName policyArn : String) (w : World) :
    Option GoErr × World × List Op :=
  match awsIamAttachRolePolicy roleName policyArn w with
  | (err, w1, t1) =>
      match err with
      | some e =>
          if goContains e.msg "EntityAlreadyExists" then (none, w1, t1)
          else (some (wrapErr "AttachPolicy failed: " e), w1, t1)
      | none => (none, w1, t1)

/-- `IAMRepository.DetachPolicy`: `NoSuchEntity` is tolerated. -/
def DetachPolicy (roleName policyArn : String) (w : World) :
    Option GoErr × World × List Op :=
  match awsIamDetachRolePolicy roleName policyArn w with
  | (err, w1, t1) =>
      match err with
      | some e =>
          if goContains e.msg "NoSuchEntity" then (none, w1, t1)
          else (some (wrapErr "DetachPolicy failed: " e), w1, t1)
      | none => (none, w1, t1)

/-- `IAMRepository.DeleteRole`: `NoSuchEntity` is tolerated. -/
def DeleteRole (roleName : String) (w : World) :
    Option GoErr × World × List Op :=
  match awsIamDeleteRole roleName w with
  | (err, w1, t1) =>
      match err with
      | some e =>
          if goContains e.msg "NoSuchEntity" then (none, w1, t1)
          else (some (wrapErr "DeleteRole failed: " e), w1, t1)
      | none => (none, w1, t1)

/-! ## Lambda repository (`LambdaRepository`) -/

/-- `LambdaRepository.GetFunction`: `ResourceNotFoundException` is mapped to
`(nil, nil)` — absent, with no error. -/
def GetFunction (functionName : String) (w : World) :
    (Option FunctionConfiguration × Option GoErr) × World × List Op :=
  match awsLambdaGetFunction functionName w with
  | ((out, err), w1, t1) =>
      match err with
      | some e =>
          if goContains e.msg "ResourceNotFoundException" then
            ((none, none), w1, t1)
          else ((none, some (wrapErr "GetFunction failed: " e)), w1, t1)
      | none => ((out, none), w1, t1)

/-- `mapRuntime`: normalisation of the declared runtime string. -/
def mapRuntime (runtime : String) : String :=
  let k := runtime.trim.toLower
  if k = "provided.al2" ∨ k = "providedal2" then "provided.al2"
  else if k = "provided.al2023" ∨ k = "providedal2023" then "provided.al2023"
  else if k = "python3.12" then "python3.12"
  else if k = "nodejs20.x" then "nodejs20.x"
  else runtime

/-- `LambdaRepository.updateFunctionConfiguration`. -/
def updateFunctionConfiguration (lc : LambdaConfig) (w : World) :
    Option GoErr × World × List Op :=
  match awsLambdaUpdateFunctionConfiguration lc.FunctionName w with
  | (uerr, w1, t1) =>
      match uerr with
      | some e => (some (wrapErr "failed to update lambda configuration: " e),
                   w1, t1)
      | none => (none, w1, t1)

/-- `LambdaRepository.updateFunctionCode`. -/
def updateFunctionCode (functionName : String) (w : World) :
    Option GoErr × World × List Op :=
  match awsLambdaUpdateFunctionCode functionName w with
  | (upCodeErr, w1, t1) =>
      match upCodeErr with
      | some e => (some (wrapErr "failed to update lambda code: " e), w1, t1)
      | none => (none, w1, t1)

/-- `LambdaRepository.waitForActive`: on a waiter error, one final
`GetFunction` check decides between soft-success (logged warning) and
failure. -/
def waitForActive (functionName : String) (w : World) :
    Option GoErr × World × List Op :=
  match awsLambdaWaiterWait functionName w with
  | (waiterErr, w1, t1) =>
      match waiterErr with
      | some _ =>
          match GetFunction functionName w1 with
          | ((_, checkErr), w2, t2) =>
              match checkErr with
              | some ce =>
                  (some (wrapErr
                    "function update wait failed and final check failed: " ce),
                   w2, t1 ++ t2)
              | none => (none, w2, t1 ++ t2)
      | none => (none, w1, t1)

/-- `LambdaRepository.EnsureFunction`: create-or-update of the function. -/
def EnsureFunction (lc : LambdaConfig) (roleArn : String) (w : World) :
    (Option String × Option GoErr) × World × List Op :=
  match osReadFile lc.ZipPath w with
  | (rerr, w1, t1) =>
      match rerr with
      | some e => ((none, some (wrapErr "reading zip file: " e)), w1, t1)
      | none =>
          let _rt := mapRuntime lc.Runtime
          match GetFunction lc.FunctionName w1 with
          | ((got, err), w2, t2) =>
              match got, err with
              | some gotCfg, none =>
                  (match updateFunctionConfiguration lc w2 with
                   | (uerr, w3, t3) =>
                       match uerr with
                       | some e => ((none, some e), w3, t1 ++ t2 ++ t3)
                       | none =>
                           match updateFunctionCode lc.FunctionName w3 with
                           | (cerr, w4, t4) =>
                               match cerr with
                               | some e =>
                                   ((none, some e), w4, t1 ++ t2 ++ t3 ++ t4)
                               | none =>
                                   match waitForActive lc.FunctionName w4 with
                                   | (werr, w5, t5) =>
                                       match werr with
                                       | some e =>
                                           ((none, some e), w5,
                                            t1 ++ t2 ++ t3 ++ t4 ++ t5)
                                       | none =>
                                           ((some gotCfg.FunctionArn, none), w5,
                                            t1 ++ t2 ++ t3 ++ t4 ++ t5))
              | _, _ =>
                  match awsLambdaCreateFunction lc.FunctionName w2 with
                  | ((result, cerr), w3, t3) =>
                      match cerr with
                      | some e =>
                          if goContains e.msg "ResourceConflictException" then
                            match GetFunction lc.FunctionName w3 with
                            | ((g2, _), w4, t4) =>
                                match g2 with
                                | some g2Cfg =>
                                    ((some g2Cfg.FunctionArn, none), w4,
                                     t1 ++ t2 ++ t3 ++ t4)
                                | none =>
                                    ((none, some e), w4, t1 ++ t2 ++ t3 ++ t4)
                          else ((none, some e), w3, t1 ++ t2 ++ t3)
                      | none =>
                          match result with
                          | some cfg =>
                              ((some cfg.FunctionArn, none), w3, t1 ++ t2 ++ t3)
                          | none =>
                              ((none,
                                some ⟨"lambda created but ARN not available"⟩),
                               w3, t1 ++ t2 ++ t3)

/-- `LambdaRepository.AddPermission`: the statement id is derived by
prepending `apigateway-` to the `apiID` argument; a
`ResourceConflictException` is tolerated. -/
def AddPermission (functionName apiID : String) (w : World) :
    Option GoErr × World × List Op :=
  let statementID := "apigateway-" ++ apiID
  match awsLambdaAddPermission functionName statementID w with
  | (err, w1, t1) =>
      match err with
      | some e =>
          if goContains e.msg "ResourceConflictException" then (none, w1, t1)
          else (some (wrapErr "AddPermission failed: " e), w1, t1)
      | none => (none, w1, t1)

/-- `LambdaRepository.RemovePermission`: `ResourceNotFoundException` is
tolerated. -/
def RemovePermission (functionName apiID : String) (w : World) :
    Option GoErr × World × List Op :=
  let statementID := "apigateway-" ++ apiID
  match awsLambdaRemovePermission functionName statementID w with
  | (err, w1, t1) =>
      match err with
      | some e =>
          if goContains e.msg "ResourceNotFoundException" then (none, w1, t1)
          else (some (wrapErr "RemovePermission failed: " e), w1, t1)
      | none => (none, w1, t1)

/-- `LambdaRepository.DeleteFunction`: `ResourceNotFoundException` is
tolerated. -/
def DeleteFunction (functionName : String) (w : World) :
    Option GoErr × World × List Op :=
  match awsLambdaDeleteFunction functionName w with
  | (err, w1, t1) =>
      match err with
      | some e =>
          if goContains e.msg "ResourceNotFoundException" then (none, w1, t1)
          else (some (wrapErr "DeleteFunction failed: " e), w1, t1)
      | none => (none, w1, t1)

/-! ## CloudWatch Logs repository (`CWLogsRepository`)

The Go helper `isAPIErrorCode` declares `var apiErr smithy.APIError` — an
interface variable whose zero value is the nil interface — and immediately
calls `apiErr.ErrorCode()` on it without ever assigning to it (there is no
`errors.As(err, &apiErr)`).  In Go, calling a method on a nil interface
value panics at runtime.  A panicking execution is modelled as `none`. -/

/-- A concrete value implementing the `smithy.APIError` interface. -/
structure APIErrorImpl where
  code : String
deriving Repr, DecidableEq

/-- The zero value of an interface-typed Go variable: the nil interface. -/
def nilAPIError : Option APIErrorImpl := none

/-- A method call `v.ErrorCode()` on an interface value `v`: panics
(`none`) when the receiver interface is nil. -/
def errorCodeOf (v : Option APIErrorImpl) : Option String :=
  match v with
  | none => none
  | some i => some i.code

/-- `isAPIErrorCode(err, code)` from the source: returns `false` for a nil
error, and otherwise calls `ErrorCode()` on the never-assigned nil
interface variable `apiErr`, which panics (`none`). -/
def isAPIErrorCode (err : Option GoErr) (code : String) : Option Bool :=
  match err with
  | none => some false
  | some _ =>
      match errorCodeOf nilAPIError with
      | none => none
      | some c => some (decide (c = code))

/-- Go's `!b` lifted over a possibly-panicking boolean. -/
def optBNot (b : Option Bool) : Option Bool :=
  match b with
  | none => none
  | some b' => some (!b')

/-- Go's short-circuit `a && b` lifted over possibly-panicking booleans. -/
def optBAnd (a : Option Bool) (b : Unit → Option Bool) : Option Bool :=
  match a with
  | none => none
  | some false => some false
  | some true => b ()

/-- `CWLogsRepository.retry`: run `fn` up to `attempts` times, sleeping
(with doubling backoff) after every failed attempt, and return the last
error if all attempts fail.  `lastErr` starts as the nil error. -/
def retryGo (attempts : Nat) (sleepMs : Nat) (lastErr : Option GoErr)
    (fn : World → Option (Option GoErr × World × List Op)) (w : World) :
    Option (Option GoErr × World × List Op) :=
  match attempts with
  | 0 => some (lastErr, w, [])
  | n + 1 =>
      match fn w with
      | none => none
      | some (err, w1, t1) =>
          match err with
          | none => some (none, w1, t1)
          | some e =>
              match retryGo n (sleepMs * 2) (some e) fn w1 with
              | none => none
              | some (r, w2, t2) =>
                  some (r, w2, t1 ++ [.opSleep sleepMs] ++ t2)

/-- The retried closure inside `CreateLogGroupIfNotExists`: put the
retention policy, treating `InvalidParameterException` as success — but the
`isAPIErrorCode` call panics on every non-nil error. -/
def putRetentionAttempt (name : String) (retentionDays : Int) (w : World) :
    Option (Option GoErr × World × List Op) :=
  match awsCwPutRetentionPolicy name retentionDays w with
  | (perr, w1, t1) =>
      match isAPIErrorCode perr "InvalidParameterException" with
      | none => none
      | some true => some (none, w1, t1)
      | some false => some (perr, w1, t1)

/-- `CWLogsRepository.CreateLogGroupIfNotExists`: create the log group
(an already-exists failure is meant to be ignored), then set the retention
policy with bounded backoff retries. -/
def CreateLogGroupIfNotExists (name : String) (retentionDays : Int)
    (w : World) : Option (Option GoErr × World × List Op) :=
  match awsCwCreateLogGroup name w with
  | (err, w1, t1) =>
      let retention : World → List Op →
          Option (Option GoErr × World × List Op) := fun w' acc =>
        match retryGo 6 300 none (putRetentionAttempt name retentionDays) w' with
        | none => none
        | some (rerr, w2, t2) =>
            match rerr with
            | some e =>
                some (some (wrapErr "PutRetentionPolicy failed after retries: " e),
                      w2, acc ++ t2)
            | none => some (none, w2, acc ++ t2)
      match err with
      | some e =>
          match optBAnd
              (optBNot (isAPIErrorCode (some e) "ResourceAlreadyExistsException"))
              (fun _ => optBNot (isAPIErrorCode (some e) "ResourceAlreadyExists"))
            with
          | none => none
          | some true => some (some (wrapErr "CreateLogGroup: " e), w1, t1)
          | some false => retention w1 t1
      | none => retention w1 t1

/-- `CWLogsRepository.DeleteLogGroup`: a `ResourceNotFoundException` is
meant to be ignored — but the `isAPIErrorCode` call panics on every non-nil
error. -/
def DeleteLogGroup (logGroupName : String) (w : World) :
    Option (Option GoErr × World × List Op) :=
  match awsCwDeleteLogGroup logGroupName w with
  | (err, w1, t1) =>
      match err with
      | none => some (none, w1, t1)
      | some e =>
          match optBNot (isAPIErrorCode (some e) "ResourceNotFoundException") with
          | none => none
          | some true => some (some (wrapErr "DeleteLogGroup failed: " e), w1, t1)
          | some false => some (none, w1, t1)

/-! ## APIGW repository (`APIGWRepository`) -/

/-- `APIGWRepository.GetRootResourceID`: scan `GetResources` for the item
whose path is `/`. -/
def GetRootResourceID (apiID : String) (w : World) :
    (String × Option GoErr) × World × List Op :=
  match awsApigwGetResources apiID w with
  | ((items, err), w1, t1) =>
      match err with
      | some e => (("", some e), w1, t1)
      | none =>
          match (items.filter (·.path = "/")).head? with
          | some res => ((res.id, none), w1, t1)
          | none => (("", some ⟨"root resource not found for API ID: " ++ apiID⟩),
                     w1, t1)

/-- `APIGWRepository.findResourceByPath`: scan `GetResources` for an item
with exactly the given path. -/
def findResourceByPath (apiID path : String) (w : World) :
    (String × Option GoErr) × World × List Op :=
  match awsApigwGetResources apiID w with
  | ((items, err), w1, t1) =>
      match err with
      | some e => (("", some e), w1, t1)
      | none =>
          match (items.filter (·.path = path)).head? with
          | some res => ((res.id, none), w1, t1)
          | none => (("", some ⟨"resource not found"⟩), w1, t1)

/-- `strings.Trim(path, "/")`: drop leading and trailing slashes. -/
def goTrimSlashes (s : String) : String :=
  ⟨((s.toList.dropWhile (· = '/')).reverse.dropWhile (· = '/')).reverse⟩

/-- `strings.Split` on a single-character separator, over char lists:
splitting an empty list yields one empty field, and every separator starts
a new field. -/
def splitChars (s : List Char) (sep : Char) : List (List Char) :=
  match s with
  | [] => [[]]
  | c :: rest =>
      if c = sep then [] :: splitChars rest sep
      else
        match splitChars rest sep with
        | [] => [[c]]
        | g :: gs => (c :: g) :: gs

/-- `strings.Split(s, "/")`. -/
def goSplitSlash (s : String) : List String :=
  (splitChars s.toList '/').map (⟨·⟩)

/-- The body of `EnsurePath`'s `for _, part := range parts` loop, threading
the current parent id, the cumulative path and the accumulated resource
map. -/
def ensurePathLoop (apiID : String) (parts : List String)
    (currentParentID currentPath : String)
    (resources : List (String × ResourceInfo)) (w : World) :
    ((String × List (String × ResourceInfo)) × Option GoErr) × World × List Op :=
  match parts with
  | [] => (((currentParentID, resources), none), w, [])
  | part :: rest =>
      let curPath := currentPath ++ "/" ++ part
      match findResourceByPath apiID curPath w with
      | ((existing, ferr), w1, t1) =>
          if ferr = none ∧ existing ≠ "" then
            match ensurePathLoop apiID rest existing curPath
                (mapSet resources curPath ⟨existing, part⟩) w1 with
            | (res, w2, t2) => (res, w2, t1 ++ t2)
          else
            match awsApigwCreateResource apiID currentParentID part w1 with
            | ((created, cerr), w2, t2) =>
                match cerr with
                | some e =>
                    if goContains e.msg "ConflictException" then
                      match findResourceByPath apiID curPath w2 with
                      | ((existing2, _), w3, t3) =>
                          if existing2 ≠ "" then
                            match ensurePathLoop apiID rest existing2 curPath
                                (mapSet resources curPath ⟨existing2, part⟩)
                                w3 with
                            | (res, w4, t4) => (res, w4, t1 ++ t2 ++ t3 ++ t4)
                          else
                            ((("", []),
                              some (wrapErr ("CreateResource failed for path "
                                ++ curPath ++ ": ") e)), w3, t1 ++ t2 ++ t3)
                    else
                      ((("", []),
                        some (wrapErr ("CreateResource failed for path "
                          ++ curPath ++ ": ") e)), w2, t1 ++ t2)
                | none =>
                    match created with
                    | some entry =>
                        match ensurePathLoop apiID rest entry.id curPath
                            (mapSet resources curPath ⟨entry.id, part⟩) w2 with
                        | (res, w3, t3) => (res, w3, t1 ++ t2 ++ t3)
                    | none =>
                        ((("", []), some ⟨"created resource unavailable"⟩),
                         w2, t1 ++ t2)

/-- `APIGWRepository.EnsurePath`: walk the slash-separated segments of
`path` from the root, reusing resources that already exist remotely and
creating the missing ones; returns the final resource id and the map of
every cumulative prefix visited. -/
def EnsurePath (apiID rootID path : String) (w : World) :
    ((String × List (String × ResourceInfo)) × Option GoErr) × World × List Op :=
  let trimmed := goTrimSlashes path
  if trimmed = "" then (((rootID, []), none), w, [])
  else ensurePathLoop apiID (goSplitSlash trimmed) rootID "" [] w

/-- `APIGWRepository.PutMethodAndIntegration`: put method, integration and
the two 200 responses; an authorizer id is attached to the method only when
the authorization type is not `NONE` and the id is a meaningful string;
`ConflictException` is tolerated on each put. -/
def PutMethodAndIntegration (apiID resourceID httpMethod functionArn region
    authorization authorizerID : String) (w : World) :
    Option GoErr × World × List Op :=
  let _uri := "arn:aws:apigateway:" ++ region ++
    ":lambda:path/2015-03-31/functions/" ++ functionArn ++ "/invocations"
  let authId : Option String :=
    if authorization ≠ "NONE" ∧ authorizerID ≠ "" ∧ authorizerID ≠ "<nil>"
    then some authorizerID else none
  match awsApigwPutMethod apiID resourceID httpMethod authId w with
  | (err1, w1, t1) =>
      match err1 with
      | some e =>
          if goContains e.msg "ConflictException" then
            putIntegrationChain apiID resourceID httpMethod w1 t1
          else (some (wrapErr "PutMethod failed: " e), w1, t1)
      | none => putIntegrationChain apiID resourceID httpMethod w1 t1
where
  /-- Steps 2–4 of `PutMethodAndIntegration`. -/
  putIntegrationChain (apiID resourceID httpMethod : String) (w : World)
      (acc : List Op) : Option GoErr × World × List Op :=
    match awsApigwPutIntegration apiID resourceID httpMethod w with
    | (err2, w2, t2) =>
        match err2 with
        | some e =>
            if goContains e.msg "ConflictException" then
              putResponses apiID resourceID httpMethod w2 (acc ++ t2)
            else (some (wrapErr "PutIntegration failed: " e), w2, acc ++ t2)
        | none => putResponses apiID resourceID httpMethod w2 (acc ++ t2)
  /-- Steps 3–4 of `PutMethodAndIntegration`. -/
  putResponses (apiID resourceID httpMethod : String) (w : World)
      (acc : List Op) : Option GoErr × World × List Op :=
    match awsApigwPutMethodResponse apiID resourceID httpMethod w with
    | (err3, w3, t3) =>
        match err3 with
        | some e =>
            if goContains e.msg "ConflictException" then
              putIntegrationResponse apiID resourceID httpMethod w3 (acc ++ t3)
            else (some (wrapErr "PutMethodResponse failed: " e), w3, acc ++ t3)
        | none => putIntegrationResponse apiID resourceID httpMethod w3 (acc ++ t3)
  /-- Step 4 of `PutMethodAndIntegration`. -/
  putIntegrationResponse (apiID resourceID httpMethod : String) (w : World)
      (acc : List Op) : Option GoErr × World × List Op :=
    match awsApigwPutIntegrationResponse apiID resourceID httpMethod w with
    | (err4, w4, t4) =>
        match err4 with
        | some e =>
            if goContains e.msg "ConflictException" then (none, w4, acc ++ t4)
            else (some (wrapErr "PutIntegrationResponse failed: " e), w4,
                  acc ++ t4)
        | none => (none, w4, acc ++ t4)

/-- `APIGWRepository.DeployAPI`. -/
def DeployAPI (apiID stageName : String) (w : World) :
    Option GoErr × World × List Op :=
  awsApigwCreateDeployment apiID stageName w

/-- `APIGWRepository.DeleteMethod`: `NotFoundException` is tolerated. -/
def DeleteMethod (apiID resourceID httpMethod : String) (w : World) :
    Option GoErr × World × List Op :=
  match awsApigwDeleteMethod apiID resourceID httpMethod w with
  | (err, w1, t1) =>
      match err with
      | some e =>
          if goContains e.msg "NotFoundException" then (none, w1, t1)
          else (some (wrapErr "DeleteMethod failed: " e), w1, t1)
      | none => (none, w1, t1)

/-- `strings.Count(path, "/")` for the single-character separator. -/
def goCountSlash (s : String) : Nat :=
  s.toList.count '/'

/-- The `resourceDepth` record built inside `DeleteResources`. -/
structure resourceDepth where
  resourceID : String
  path : String
  depth : Nat
deriving Repr, DecidableEq, Inhabited

/-- `sortedResources` before sorting: one `resourceDepth` per map entry, in
map (association-list) order, with `depth = strings.Count(path, "/")`. -/
def buildResourceDepths (resources : List (String × ResourceInfo)) :
    List resourceDepth :=
  resources.map (fun kv => ⟨kv.2.ResourceID, kv.1, goCountSlash kv.1⟩)

/-- `sortedResources[i], sortedResources[j] = sortedResources[j], sortedResources[i]`. -/
def listSwap {α : Type} [Inhabited α] (l : List α) (i j : Nat) : List α :=
  (l.set i (l.getD j default)).set j (l.getD i default)

/-- The inner `for j := i+1; j < len; j++` loop of the sort in
`DeleteResources`: swap whenever the element at `j` is strictly deeper than
the element at `i`.  The fuel argument counts the remaining iterations;
the loop's bound never changes because swaps preserve length, so any fuel
of at least `len - j` runs the loop to completion. -/
def sortInner (l : List resourceDepth) (i j fuel : Nat) : List resourceDepth :=
  match fuel with
  | 0 => l
  | f + 1 =>
      if j < l.length then
        if (l.getD j default).depth > (l.getD i default).depth then
          sortInner (listSwap l i j) i (j + 1) f
        else
          sortInner l i (j + 1) f
      else l

/-- The outer `for i := 0; i < len; i++` loop of the sort in
`DeleteResources`, with the same fuel convention. -/
def sortOuter (l : List resourceDepth) (i : Nat) (fuel : Nat) :
    List resourceDepth :=
  match fuel with
  | 0 => l
  | f + 1 => if i < l.length then
               sortOuter (sortInner l i (i + 1) l.length) (i + 1) f
             else l

/-- The complete sorting pass of `DeleteResources`: annotate every map
entry with its depth and sort by strictly-greater depth swaps (descending
depth). -/
def sortResourcesByDepth (resources : List (String × ResourceInfo)) :
    List resourceDepth :=
  let sr := buildResourceDepths resources
  sortOuter sr 0 sr.length

/-- The deletion loop of `DeleteResources`: delete each resource in sorted
order, ignoring every per-resource error (non-NotFound failures are only
printed as warnings), sleeping 200ms after each deletion. -/
def deleteResourcesLoop (apiID : String) (rs : List resourceDepth)
    (w : World) : World × List Op :=
  match rs with
  | [] => (w, [])
  | r :: rest =>
      match awsApigwDeleteResource apiID r.resourceID w with
      | (_, w1, t1) =>
          match deleteResourcesLoop apiID rest w1 with
          | (w2, t2) => (w2, t1 ++ [.opSleep 200] ++ t2)

/-- `APIGWRepository.DeleteResources`: sort the recorded resources by
descending depth and delete them in that order; always returns the nil
error. -/
def DeleteResources (apiID : String)
    (resources : List (String × ResourceInfo)) (w : World) :
    Option GoErr × World × List Op :=
  if resources = [] then (none, w, [])
  else
    match deleteResourcesLoop apiID (sortResourcesByDepth resources) w with
    | (w1, t1) => (none, w1, t1)

/-! ## Services -/

/-- The region held by the `AWSClient` bundle. -/
def modelRegion : String := "us-east-1"

/-- The account id held by the `AWSClient` bundle. -/
def modelAccountID : String := "123456789012"

/-- The `for _, arn := range policyARNs` attach loop of
`IAMService.EnsureRole`. -/
def attachPoliciesLoop (roleName : String) (arns : List String) (w : World) :
    Option GoErr × World × List Op :=
  match arns with
  | [] => (none, w, [])
  | arn :: rest =>
      match AttachPolicy roleName arn w with
      | (err, w1, t1) =>
          match err with
          | some e =>
              (some (wrapErr ("failed to attach policy " ++ arn ++ ": ") e),
               w1, t1)
          | none =>
              match attachPoliciesLoop roleName rest w1 with
              | (r, w2, t2) => (r, w2, t1 ++ t2)

/-- `IAMService.EnsureRole`: get-or-create the execution role, attach the
base policy and the custom policies, then wait a fixed 10s for IAM
propagation. -/
def EnsureRole (functionName : String) (policyARNs : List String) (w : World) :
    (String × Option GoErr) × World × List Op :=
  let roleName := functionName ++ "-execution-role"
  let basePolicyArn :=
    "arn:aws:iam::aws:policy/service-role/AWSLambdaBasicExecutionRole"
  match GetRole roleName w with
  | ((role, err), w1, t1) =>
      match err with
      | some e => (("", some e), w1, t1)
      | none =>
          match role with
          | none =>
              match CreateRole roleName w1 with
              | ((roleArn, cerr), w2, t2) =>
                  match cerr with
                  | some e => (("", some e), w2, t1 ++ t2)
                  | none =>
                      attachPhase roleName policyARNs roleArn w2 (t1 ++ t2)
          | some r => attachPhase roleName policyARNs (some r.Arn) w1 t1
where
  /-- The linear tail of `EnsureRole`: attach the base policy, attach the
  custom policies, wait 10s for propagation, return the role ARN. -/
  attachPhase (roleName : String) (policyARNs : List String)
      (roleArn : Option String) (w : World) (acc : List Op) :
      (String × Option GoErr) × World × List Op :=
    let basePolicyArn :=
      "arn:aws:iam::aws:policy/service-role/AWSLambdaBasicExecutionRole"
    match AttachPolicy roleName basePolicyArn w with
    | (aerr, w3, t3) =>
        match aerr with
        | some e => (("", some e), w3, acc ++ t3)
        | none =>
            match attachPoliciesLoop roleName policyARNs w3 with
            | (perr, w4, t4) =>
                match perr with
                | some e => (("", some e), w4, acc ++ t3 ++ t4)
                | none =>
                    ((roleArn.getD "", none), w4,
                     acc ++ t3 ++ t4 ++ [.opSleep 10000])

/-- `IAMService.DeleteRoleAndPolicies`: best-effort detach of the custom
and base policies, then delete the role. -/
def DeleteRoleAndPolicies (roleName : String) (policyARNs : List String)
    (w : World) : Option GoErr × World × List Op :=
  let basePolicyArn :=
    "arn:aws:iam::aws:policy/service-role/AWSLambdaBasicExecutionRole"
  match detachLoop roleName policyARNs w with
  | (w1, t1) =>
      match DetachPolicy roleName basePolicyArn w1 with
      | (_, w2, t2) =>
          match DeleteRole roleName w2 with
          | (err, w3, t3) => (err, w3, t1 ++ t2 ++ t3)
where
  /-- The ignored-result detach loop over the custom policy ARNs. -/
  detachLoop (roleName : String) (arns : List String) (w : World) :
      World × List Op :=
    match arns with
    | [] => (w, [])
    | arn :: rest =>
        match DetachPolicy roleName arn w with
        | (_, w1, t1) =>
            match detachLoop roleName rest w1 with
            | (w2, t2) => (w2, t1 ++ t2)

/-- `CWLogsService.EnsureLogGroup`: derive the `/aws/lambda/<name>` log
group name and delegate to `CreateLogGroupIfNotExists`. -/
def EnsureLogGroup (functionName : String) (retentionDays : Int) (w : World) :
    Option ((String × Option GoErr) × World × List Op) :=
  let logGroupName := "/aws/lambda/" ++ functionName
  match CreateLogGroupIfNotExists logGroupName retentionDays w with
  | none => none
  | some (err, w1, t1) =>
      match err with
      | some e => some (("", some e), w1, t1)
      | none => some ((logGroupName, none), w1, t1)

/-- The `for _, r := range routes` loop of
`APIGatewayService.EnsureRoutesAndDeploy`, threading the aggregated
resource map and the accumulated route states. -/
def ensureRoutesLoop (apiID functionArn region rootID : String)
    (routes : List RouteConfig) (resAcc : List (String × ResourceInfo))
    (routesState : List RouteState) (w : World) :
    ((List (String × ResourceInfo) × List RouteState) × Option GoErr) ×
      World × List Op :=
  match routes with
  | [] => (((resAcc, routesState), none), w, [])
  | r :: rest =>
      match EnsurePath apiID rootID r.Path w with
      | (((resourceID, pathResources), perr), w1, t1) =>
          match perr with
          | some e =>
              ((([], []),
                some (wrapErr ("ensure path " ++ r.Path ++ ": ") e)), w1, t1)
          | none =>
              let resAcc := mergeResources resAcc pathResources
              match PutMethodAndIntegration apiID resourceID r.Method
                  functionArn region r.Authorization r.AuthorizerID w1 with
              | (merr, w2, t2) =>
                  match merr with
                  | some e =>
                      ((([], []),
                        some (wrapErr ("put method/integration " ++ r.Method
                          ++ " " ++ r.Path ++ ": ") e)), w2, t1 ++ t2)
                  | none =>
                      match ensureRoutesLoop apiID functionArn region rootID
                          rest resAcc
                          (routesState ++ [⟨r.Path, r.Method, r.Authorization,
                            r.AuthorizerID, resourceID⟩]) w2 with
                      | (res, w3, t3) => (res, w3, t1 ++ t2 ++ t3)
where
  /-- The `for k, v := range pathResources` aggregation. -/
  mergeResources (acc m : List (String × ResourceInfo)) :
      List (String × ResourceInfo) :=
    match m with
    | [] => acc
    | (k, v) :: rest => mergeResources (mapSet acc k v) rest

/-- `APIGatewayService.EnsureRoutesAndDeploy`: resolve the root once,
process every route (path chain, then method/integration), and finally
deploy the stage once. -/
def EnsureRoutesAndDeploy (apiID stage functionArn functionName region : String)
    (routes : List RouteConfig) (w : World) :
    (Option APIGWState × Option GoErr) × World × List Op :=
  let _ := functionName
  match GetRootResourceID apiID w with
  | ((rootID, rerr), w1, t1) =>
      match rerr with
      | some e =>
          ((none, some (wrapErr "getting root resource ID: " e)), w1, t1)
      | none =>
          match ensureRoutesLoop apiID functionArn region rootID routes []
              [] w1 with
          | (((resources, routesState), lerr), w2, t2) =>
              match lerr with
              | some e => ((none, some e), w2, t1 ++ t2)
              | none =>
                  match DeployAPI apiID stage w2 with
                  | (derr, w3, t3) =>
                      match derr with
                      | some e =>
                          ((none, some (wrapErr "deploy api failed: " e)),
                           w3, t1 ++ t2 ++ t3)
                      | none =>
                          ((some ⟨apiID, stage, routesState, resources⟩, none),
                           w3, t1 ++ t2 ++ t3)

/-- The ignored-result `DeleteMethod` loop of
`APIGatewayService.DeleteRoutesOrchestration`. -/
def deleteMethodsLoop (apiID : String) (routes : List RouteState) (w : World) :
    World × List Op :=
  match routes with
  | [] => (w, [])
  | route :: rest =>
      match DeleteMethod apiID route.ResourceID route.Method w with
      | (_, w1, t1) =>
          match deleteMethodsLoop apiID rest w1 with
          | (w2, t2) => (w2, t1 ++ t2)

/-- `APIGatewayService.DeleteRoutesOrchestration`: delete every route's
method, wait 500ms for consistency, then delete the recorded path
resources. -/
def DeleteRoutesOrchestration (apiID : String) (routes : List RouteState)
    (resources : List (String × ResourceInfo)) (w : World) :
    Option GoErr × World × List Op :=
  match deleteMethodsLoop apiID routes w with
  | (w1, t1) =>
      match DeleteResources apiID resources w1 with
      | (err, w2, t2) => (err, w2, t1 ++ [.opSleep 500] ++ t2)

/-- `LambdaDeploymentService.EnsureDeployment`: the creation orchestration
Identity → Compute → LogSink → permission grant → Router; any stage error
aborts immediately with a stage-naming wrapper; a `none` result is the
modelled panic inside the LogSink stage. -/
def EnsureDeployment (apiID stage : String) (lc : LambdaConfig)
    (routes : List RouteConfig) (w : World) :
    Option ((Option ResourceState × Option GoErr) × World × List Op) :=
  match EnsureRole lc.FunctionName lc.PolicyARNs w with
  | ((roleArn, rerr), w1, t1) =>
      match rerr with
      | some e =>
          some ((none, some (wrapErr "IAM role setup failed: " e)), w1, t1)
      | none =>
          match EnsureFunction lc roleArn w1 with
          | ((fnArn, ferr), w2, t2) =>
              match ferr with
              | some e =>
                  some ((none, some (wrapErr "Lambda function setup failed: " e)),
                        w2, t1 ++ t2)
              | none =>
                  match fnArn with
                  | none => none
                  | some fnArnVal =>
                      match EnsureLogGroup lc.FunctionName 14 w2 with
                      | none => none
                      | some ((logGroup, gerr), w3, t3) =>
                          match gerr with
                          | some e =>
                              some ((none,
                                some (wrapErr "Log group setup failed: " e)),
                                w3, t1 ++ t2 ++ t3)
                          | none =>
                              let statementID := "apigateway-" ++ apiID
                              let _sourceArn := "arn:aws:execute-api:" ++
                                modelRegion ++ ":" ++ modelAccountID ++ ":" ++
                                apiID ++ "/*/*/*"
                              match AddPermission lc.FunctionName statementID
                                  w3 with
                              | (aerr, w4, t4) =>
                                  match aerr with
                                  | some e =>
                                      some ((none,
                                        some (wrapErr "Lambda permission failed: " e)),
                                        w4, t1 ++ t2 ++ t3 ++ t4)
                                  | none =>
                                      match EnsureRoutesAndDeploy apiID stage
                                          fnArnVal lc.FunctionName modelRegion
                                          routes w4 with
                                      | ((apigwState, werr), w5, t5) =>
                                          match apigwState, werr with
                                          | _, some e =>
                                              some ((none,
                                                some (wrapErr "APIGW route setup failed: " e)),
                                                w5, t1 ++ t2 ++ t3 ++ t4 ++ t5)
                                          | none, none => none
                                          | some st, none =>
                                              some ((some
                                                ⟨lc.FunctionName ++ "-execution-role",
                                                 lc.FunctionName, some fnArnVal,
                                                 st.APIGatewayID, st.StageName,
                                                 st.Routes, logGroup,
                                                 st.Resources, lc.PolicyARNs⟩,
                                                none), w5,
                                                t1 ++ t2 ++ t3 ++ t4 ++ t5)

/-- `LambdaDeploymentService.DeleteDeployment`: router deletion, permission
removal (best-effort), function deletion, role deletion, log-group deletion
(best-effort, but its `isAPIErrorCode` call panics when the remote delete
errors); collected errors are aggregated into one message. -/
def DeleteDeployment (st : ResourceState) (w : World) :
    Option (Option GoErr × World × List Op) :=
  match DeleteRoutesOrchestration st.APIGatewayID st.Routes st.Resources w with
  | (apigwErr, w1, t1) =>
      let errors1 : List GoErr :=
        match apigwErr with
        | some e => [wrapErr "APIGW deletion failed: " e]
        | none => []
      let statementID := "apigateway-" ++ st.APIGatewayID
      match RemovePermission st.FunctionName statementID w1 with
      | (_, w2, t2) =>
          match DeleteFunction st.FunctionName w2 with
          | (fnErr, w3, t3) =>
              let errors2 := errors1 ++
                (match fnErr with
                 | some e => [wrapErr "Lambda deletion failed: " e]
                 | none => [])
              match DeleteRoleAndPolicies st.RoleName st.AttachedPolicyARNs
                  w3 with
              | (roleErr, w4, t4) =>
                  let errors3 := errors2 ++
                    (match roleErr with
                     | some e => [wrapErr "IAM role deletion failed: " e]
                     | none => [])
                  match DeleteLogGroup st.LogGroup w4 with
                  | none => none
                  | some (_, w5, t5) =>
                      if errors3 = [] then
                        some (none, w5, t1 ++ t2 ++ t3 ++ t4 ++ t5)
                      else
                        some (some ⟨"multiple errors during deletion: " ++
                          String.intercalate "; " (errors3.map (·.msg))⟩,
                          w5, t1 ++ t2 ++ t3 ++ t4 ++ t5)

/-! ## Specification-side vocabulary -/

/-- The orchestration stage an ensure-side operation belongs to:
1 = Identity, 2 = Compute, 3 = LogSink, 4 = permission grant, 5 = Router.
Waits (`opSleep`) and teardown-side operations are unclassified. -/
def opTag (op : Op) : Option Nat :=
  match op with
  | .opGetRole _ => some 1
  | .opCreateRole _ => some 1
  | .opAttachRolePolicy _ _ => some 1
  | .opReadFile _ => some 2
  | .opGetFunction _ => some 2
  | .opCreateFunction _ => some 2
  | .opUpdateFunctionConfiguration _ => some 2
  | .opUpdateFunctionCode _ => some 2
  | .opWaiterWait _ => some 2
  | .opCreateLogGroup _ => some 3
  | .opPutRetentionPolicy _ _ => some 3
  | .opAddPermission _ _ => some 4
  | .opGetResources _ => some 5
  | .opCreateResource _ _ _ => some 5
  | .opPutMethod _ _ _ _ => some 5
  | .opPutIntegration _ _ _ => some 5
  | .opPutMethodResponse _ _ _ => some 5
  | .opPutIntegrationResponse _ _ _ => some 5
  | .opCreateDeployment _ _ => some 5
  | _ => none

/-- Whether an operation undoes previously created state (a rollback /
teardown operation). -/
def isUndoOp (op : Op) : Bool :=
  match op with
  | .opDetachRolePolicy _ _ => true
  | .opDeleteRole _ => true
  | .opRemovePermission _ _ => true
  | .opDeleteFunction _ => true
  | .opDeleteLogGroup _ => true
  | .opDeleteMethod _ _ _ => true
  | .opDeleteResource _ _ => true
  | _ => false

/-- Every operation of the trace belongs to stage `k` (or is an
unclassified wait) and none of them undoes state. -/
def TraceOk (k : Nat) (tr : List Op) : Prop :=
  ∀ op ∈ tr, (opTag op = some k ∨ opTag op = none) ∧ isUndoOp op = false

/-- A canonical ResourceInfo key: `/s1/s2/.../sn` for nonempty
slash-free segments `segs = [s1, ..., sn]`.  Every key the router records
has this shape; its number of path segments is `segs.length`. -/
def CanonKey (p : String) (segs : List (List Char)) : Prop :=
  segs ≠ [] ∧ (∀ s ∈ segs, s ≠ [] ∧ '/' ∉ s) ∧
    p.toList = (segs.map (fun s => '/' :: s)).flatten

/-- The cumulative paths the `EnsurePath` walk visits, starting from the
cumulative path `base`. -/
def cumPathsFrom (base : String) (parts : List String) : List String :=
  match parts with
  | [] => []
  | p :: rest => (base ++ "/" ++ p) :: cumPathsFrom (base ++ "/" ++ p) rest

/-- Every cumulative path prefix of a route path, as `EnsurePath` computes
them: trim slashes, split on `/`, accumulate. -/
def cumulativePaths (p : String) : List String :=
  let t := goTrimSlashes p
  if t = "" then [] else cumPathsFrom "" (goSplitSlash t)

/-! ## Concrete scenarios used by witnesses and counterexamples -/

/-- A fresh account holding only the gateway root resource and the
function's zip file. -/
def w0 : World :=
  { roles := [], rolePolicies := [], functions := [], permissions := [],
    logGroups := [], logRetention := [], gwResources := [⟨"root0", "/"⟩],
    gwMethods := [], deployCount := 0, nextId := 0,
    files := ["/tmp/fn.zip"], waiterFails := [], vanishDuringWait := [],
    getFunctionFails := [], deleteResourceFail := [] }

/-- The two routes of the prefix-sharing scenario. -/
def routesC4 : List RouteConfig :=
  [⟨"/a/b", "GET", "NONE", ""⟩, ⟨"/a/c", "POST", "NONE", ""⟩]

/-- The declared function of the concrete scenarios. -/
def lc0 : LambdaConfig :=
  ⟨"fn", "provided.al2", "bootstrap", "/tmp/fn.zip", 128, 30, [], []⟩

/-- The world as the first successful `EnsureDeployment` call leaves it. -/
def firstCallWorld : World :=
  match EnsureDeployment "api1" "dev" lc0 routesC4 w0 with
  | some (_, w1, _) => w1
  | none => w0

/-- A world in which the function exists but the readiness waiter times
out and the function is deleted out-of-band while the waiter runs. -/
def wC6 : World :=
  { w0 with functions := [("fn", mkFunctionArn "fn")],
            waiterFails := ["fn"], vanishDuringWait := ["fn"] }

/-- The deployment record of the teardown scenario: one route `/a`. -/
def stC7 : ResourceState :=
  ⟨"fn-execution-role", "fn", some (mkFunctionArn "fn"), "api1", "dev",
   [⟨"/a", "GET", "NONE", "", "res-0"⟩], "/aws/lambda/fn",
   [("/a", ⟨"res-0", "a"⟩)], []⟩

/-- A fully deployed world in which deleting the `/a` path resource fails
with a non-NotFound error. -/
def wC7 : World :=
  { w0 with
    roles := ["fn-execution-role"], functions := [("fn", mkFunctionArn "fn")],
    logGroups := ["/aws/lambda/fn"],
    gwResources := [⟨"root0", "/"⟩, ⟨"res-0", "/a"⟩],
    gwMethods := [("res-0", "GET")],
    deleteResourceFail := [("res-0", "AccessDeniedException: not allowed")] }

/-- Whether an op is a remote path-resource creation. -/
def isCreateResourceOp (op : Op) : Bool :=
  match op with
  | .opCreateResource _ _ _ => true
  | _ => false

/-- Whether an op is a method-binding deletion. -/
def isDeleteMethodOp (op : Op) : Bool :=
  match op with
  | .opDeleteMethod _ _ _ => true
  | _ => false

/-- Whether an op is a path-resource deletion. -/
def isDeleteResourceOp (op : Op) : Bool :=
  match op with
  | .opDeleteResource _ _ => true
  | _ => false

/-- The resource ids of the path-resource deletions of a trace, in
order. -/
def deleteResourceIds (ops : List Op) : List String :=
  ops.filterMap (fun op =>
    match op with
    | .opDeleteResource _ rid => some rid
    | _ => none)

/-- How many method puts of the trace attached an authorizer id. -/
def putMethodAttachCount (ops : List Op) : Nat :=
  (ops.filter (fun op =>
    match op with
    | .opPutMethod _ _ _ (some _) => true
    | _ => false)).length

/-- The operation trace of a non-panicking `DeleteDeployment` run. -/
def deleteOpsOf (st : ResourceState) (w : World) : List Op :=
  match DeleteDeployment st w with
  | some (_, _, ops) => ops
  | none => []

/-- The operation trace of a non-panicking `EnsureDeployment` run. -/
def ensureOpsOf (apiID stage : String) (lc : LambdaConfig)
    (routes : List RouteConfig) (w : World) : List Op :=
  match EnsureDeployment apiID stage lc routes w with
  | some (_, _, ops) => ops
  | none => []

/-- The error a non-panicking `EnsureDeployment` run returns. -/
def ensureErrOf (apiID stage : String) (lc : LambdaConfig)
    (routes : List RouteConfig) (w : World) : Option GoErr :=
  match EnsureDeployment apiID stage lc routes w with
  | some ((_, err), _, _) => err
  | none => none

/-- The record a non-panicking `EnsureDeployment` run returns. -/
def ensureRecOf (apiID stage : String) (lc : LambdaConfig)
    (routes : List RouteConfig) (w : World) : Option ResourceState :=
  match EnsureDeployment apiID stage lc routes w with
  | some ((rec, _), _, _) => rec
  | none => none

/-- The state a successful `EnsureRoutesAndDeploy` call returns. -/
def apigwStateOf (apiID stage functionArn functionName region : String)
    (routes : List RouteConfig) (w : World) : APIGWState :=
  ((EnsureRoutesAndDeploy apiID stage functionArn functionName region
      routes w).1.1).getD ⟨"", "", [], []⟩

/-- Concatenation of a list of stage-tagged operation blocks. -/
def catBlocks (bs : List (Nat × List Op)) : List Op :=
  match bs with
  | [] => []
  | b :: rest => b.2 ++ catBlocks rest

/-- The final world of a non-panicking `EnsureDeployment` run. -/
def ensureWorldOf (apiID stage : String) (lc : LambdaConfig)
    (routes : List RouteConfig) (w : World) : World :=
  match EnsureDeployment apiID stage lc routes w with
  | some (_, w2, _) => w2
  | none => w

/-- The stage-naming error wrapper `EnsureDeployment` applies to the error
of each failing stage. -/
def stageWrap (k : Nat) : String :=
  match k with
  | 1 => "IAM role setup failed: "
  | 2 => "Lambda function setup failed: "
  | 3 => "Log group setup failed: "
  | 4 => "Lambda permission failed: "
  | 5 => "APIGW route setup failed: "
  | _ => ""

/-- The four put operations `PutMethodAndIntegration` issues for one
method binding. -/
def mkPutOps (apiID rid m : String) (a : Option String) : List Op :=
  [.opPutMethod apiID rid m a, .opPutIntegration apiID rid m,
   .opPutMethodResponse apiID rid m, .opPutIntegrationResponse apiID rid m]

/-- The per-route resolution chain of `EnsureRoutesAndDeploy`: each
returned `RouteState` carries the route's declared fields and, as
`ResourceID`, exactly the path-resource id `EnsurePath` resolved for that
route's path in the world the loop had reached, and the method/integration
puts of that route target exactly that id. -/
def RoutesResolved (apiID fa rg rootID : String) :
    List RouteConfig → List RouteState → World → World → List Op → Prop
  | [], [], w, w2, t => w2 = w ∧ t = []
  | r :: rest, st :: strest, w, w2, t =>
      ∃ pres w1 ep wm tr,
        EnsurePath apiID rootID r.Path w =
          (((st.ResourceID, pres), none), w1, ep) ∧
        PutMethodAndIntegration apiID st.ResourceID r.Method fa rg
          r.Authorization r.AuthorizerID w1 =
          (none, wm, mkPutOps apiID st.ResourceID r.Method
            (if r.Authorization ≠ "NONE" ∧ r.AuthorizerID ≠ "" ∧
              r.AuthorizerID ≠ "<nil>" then some r.AuthorizerID else none)) ∧
        st.Path = r.Path ∧ st.Method = r.Method ∧
        st.Authorization = r.Authorization ∧
        st.AuthorizerID = r.AuthorizerID ∧
        RoutesResolved apiID fa rg rootID rest strest wm w2 tr ∧
        t = ep ++ mkPutOps apiID st.ResourceID r.Method
          (if r.Authorization ≠ "NONE" ∧ r.AuthorizerID ≠ "" ∧
            r.AuthorizerID ≠ "<nil>" then some r.AuthorizerID else none)
          ++ tr
  | _, _, _, _, _ => False

/-! ## Claim theorems -/

/-- **C10.** For every non-nil error `e` and every code `c`, the helper
`isAPIErrorCode(e, c)` calls `ErrorCode()` on the freshly declared,
never-assigned nil `smithy.APIError` interface variable instead of
inspecting `e`, so the call panics; consequently the "already exists is
ignored" branch of `CreateLogGroupIfNotExists` and the "not found is
success" branch of `DeleteLogGroup` are never reached through a true
classification — those executions panic instead. -/
theorem isAPIErrorCode_nil_interface_panics :
    (∀ (e : GoErr) (c : String), isAPIErrorCode (some e) c = none) ∧
    (∀ (name : String) (days : Int) (w : World), name ∈ w.logGroups →
      CreateLogGroupIfNotExists name days w = none) ∧
    (∀ (name : String) (w : World), name ∉ w.logGroups →
      DeleteLogGroup name w = none) := by
  refine ⟨fun e c => rfl, ?_, ?_⟩
  · intro name days w h
    simp [CreateLogGroupIfNotExists, awsCwCreateLogGroup, h,
      isAPIErrorCode, errorCodeOf, nilAPIError, optBAnd, optBNot]
  · intro name w h
    simp [DeleteLogGroup, awsCwDeleteLogGroup, h,
      isAPIErrorCode, errorCodeOf, nilAPIError, optBNot]

/-- Witness for `isAPIErrorCode_nil_interface_panics` at concrete
inputs. -/
theorem isAPIErrorCode_nil_interface_panics_witness :
    isAPIErrorCode (some ⟨"boom"⟩) "Code" = none ∧
    CreateLogGroupIfNotExists "/g" 14 { w0 with logGroups := ["/g"] } = none ∧
    DeleteLogGroup "/g" w0 = none := by
  refine ⟨isAPIErrorCode_nil_interface_panics.1 ⟨"boom"⟩ "Code",
    isAPIErrorCode_nil_interface_panics.2.1 "/g" 14
      { w0 with logGroups := ["/g"] } (by decide),
    isAPIErrorCode_nil_interface_panics.2.2 "/g" w0 (by decide)⟩

/-- **C5.** At the failing input — the log group already exists, so the
remote create returns `ResourceAlreadyExistsException` — the code panics
inside `isAPIErrorCode` instead of treating the error as success and
proceeding to set the retention policy. -/
theorem CreateLogGroupIfNotExists_already_exists_panics :
    CreateLogGroupIfNotExists "/aws/lambda/fn" 14
      { w0 with logGroups := ["/aws/lambda/fn"] } = none := by
  decide

/-- **C2.** The first `EnsureDeployment` call on a fresh account succeeds
and returns a record, but the second call with the identical spec panics
(modelled `none`): the log group now exists, the remote create returns
already-exists, and `isAPIErrorCode` panics on that non-nil error. -/
theorem EnsureDeployment_second_call_panics :
    (EnsureDeployment "api1" "dev" lc0 routesC4 w0).map
        (fun r => (r.1.1.isSome, r.1.2)) = some (true, none) ∧
    EnsureDeployment "api1" "dev" lc0 routesC4 firstCallWorld = none := by
  exact ⟨rfl, rfl⟩

/-- **C4.** For routes `/a/b` (GET) and `/a/c` (POST) against a gateway
holding only the root, the returned state has exactly the three entries
`/a`, `/a/b`, `/a/c`, and the remote `CreateResource` call for the shared
`/a` (parent = root, part = `a`) happens exactly once; three creations in
total. -/
theorem EnsureRoutesAndDeploy_shared_path_created_once :
    ((EnsureRoutesAndDeploy "api1" "dev" (mkFunctionArn "fn") "fn"
        modelRegion routesC4 w0).1 =
      (some ⟨"api1", "dev",
        [⟨"/a/b", "GET", "NONE", "", "res-1"⟩,
         ⟨"/a/c", "POST", "NONE", "", "res-2"⟩],
        [("/a", ⟨"res-0", "a"⟩), ("/a/b", ⟨"res-1", "b"⟩),
         ("/a/c", ⟨"res-2", "c"⟩)]⟩, none)) ∧
    ((EnsureRoutesAndDeploy "api1" "dev" (mkFunctionArn "fn") "fn"
        modelRegion routesC4 w0).2.2.count
      (.opCreateResource "api1" "root0" "a") = 1) ∧
    (((EnsureRoutesAndDeploy "api1" "dev" (mkFunctionArn "fn") "fn"
        modelRegion routesC4 w0).2.2.filter isCreateResourceOp).length = 3) := by
  decide

/-- **C8, counterexample.** A successful `EnsureRoutesAndDeploy` call
whose returned ResourceInfo map has no entry for the gateway's root
resource: no key `/`, and no entry carrying the root's remote id
(`root0`), refuting "contains an entry for the gateway's root
resource". -/
theorem EnsureRoutesAndDeploy_no_root_entry :
    ((EnsureRoutesAndDeploy "api1" "dev" (mkFunctionArn "fn") "fn"
        modelRegion routesC4 w0).1.2 = none) ∧
    ((EnsureRoutesAndDeploy "api1" "dev" (mkFunctionArn "fn") "fn"
        modelRegion routesC4 w0).1.1.map (fun st =>
      (mapGet st.Resources "/",
       st.Resources.all (fun kv => kv.2.ResourceID != "root0"))) =
      some (none, true)) := by
  decide

/-- **C6, counterexample.** The waiter times out and the function has been
removed out-of-band while waiting, so the final existence check does not
find the function — yet `EnsureFunction` returns success (the final
`GetFunction` maps `ResourceNotFoundException` to a nil error, and
`waitForActive` only fails when that call returns a non-nil error). -/
theorem EnsureFunction_wait_timeout_unreachable_success :
    ((EnsureFunction lc0 (mkRoleArn "fn-execution-role") wC6).1 =
      (some (mkFunctionArn "fn"), none)) ∧
    (mapGet (EnsureFunction lc0
        (mkRoleArn "fn-execution-role") wC6).2.1.functions "fn" = none) := by
  decide

/-- **C9.** In `PutMethodAndIntegration`, a route whose authorization type
is `NONE` (the concrete value of the spec's "none" mode) never attaches an
authorizer id to the method, even when one is supplied; a route with a
different mode and a meaningful authorizer id (the code treats `""` and
the stringified nil `"<nil>"` as absent) attaches it to the method exactly
once. -/
theorem PutMethodAndIntegration_authorizer_binding
    (apiID resourceID httpMethod functionArn region authorization
      authorizerID : String) (w : World) :
    (authorization = "NONE" →
      putMethodAttachCount (PutMethodAndIntegration apiID resourceID
        httpMethod functionArn region authorization authorizerID w).2.2 = 0) ∧
    (authorization ≠ "NONE" → authorizerID ≠ "" → authorizerID ≠ "<nil>" →
      putMethodAttachCount (PutMethodAndIntegration apiID resourceID
        httpMethod functionArn region authorization authorizerID w).2.2 = 1) := by
  constructor
  · intro hNone
    simp [PutMethodAndIntegration, PutMethodAndIntegration.putIntegrationChain,
      PutMethodAndIntegration.putResponses,
      PutMethodAndIntegration.putIntegrationResponse,
      awsApigwPutMethod, awsApigwPutIntegration, awsApigwPutMethodResponse,
      awsApigwPutIntegrationResponse, putMethodAttachCount, hNone]
  · intro h1 h2 h3
    simp [PutMethodAndIntegration, PutMethodAndIntegration.putIntegrationChain,
      PutMethodAndIntegration.putResponses,
      PutMethodAndIntegration.putIntegrationResponse,
      awsApigwPutMethod, awsApigwPutIntegration, awsApigwPutMethodResponse,
      awsApigwPutIntegrationResponse, putMethodAttachCount, h1, h2, h3]

/-- Witness for `PutMethodAndIntegration_authorizer_binding`: both modes
at concrete inputs. -/
theorem PutMethodAndIntegration_authorizer_binding_witness :
    putMethodAttachCount (PutMethodAndIntegration "api1" "res-0" "GET"
      "arn" "us-east-1" "NONE" "auth-1" w0).2.2 = 0 ∧
    putMethodAttachCount (PutMethodAndIntegration "api1" "res-0" "GET"
      "arn" "us-east-1" "CUSTOM" "auth-1" w0).2.2 = 1 := by
  exact ⟨(PutMethodAndIntegration_authorizer_binding "api1" "res-0" "GET"
      "arn" "us-east-1" "NONE" "auth-1" w0).1 rfl,
    (PutMethodAndIntegration_authorizer_binding "api1" "res-0" "GET"
      "arn" "us-east-1" "CUSTOM" "auth-1" w0).2
      (by decide) (by decide) (by decide)⟩

/-- **C6, amended.** When the readiness wait times out, `waitForActive`
returns an error exactly when the final `GetFunction` call itself returns
a non-nil error (an injected terminal failure); a function that is simply
absent at the final check is mapped by `GetFunction` to a nil error and is
therefore treated as soft success, not as a failure. -/
theorem waitForActive_error_iff_final_check_error (fn : String) (w : World)
    (h : fn ∈ w.waiterFails) :
    ((waitForActive fn w).1 ≠ none ↔ fn ∈ w.getFunctionFails) := by
  have hthr : goContains "ThrottlingException: rate exceeded"
      "ResourceNotFoundException" = false := by decide
  have hnf : goContains "ResourceNotFoundException: function not found"
      "ResourceNotFoundException" = true := by decide
  by_cases hv : fn ∈ w.vanishDuringWait
  · by_cases hg : fn ∈ w.getFunctionFails
    · simp [waitForActive, awsLambdaWaiterWait, GetFunction,
        awsLambdaGetFunction, hv, hg, h, hthr]
    · simp only [waitForActive, awsLambdaWaiterWait, GetFunction,
        awsLambdaGetFunction, hv, hg, h, if_true, if_false, ite_true,
        ite_false]
      cases hm : mapGet (List.filter (fun x => !decide (x.1 = fn))
          w.functions) fn <;> simp_all
  · by_cases hg : fn ∈ w.getFunctionFails
    · simp [waitForActive, awsLambdaWaiterWait, GetFunction,
        awsLambdaGetFunction, hv, hg, h, hthr]
    · simp only [waitForActive, awsLambdaWaiterWait, GetFunction,
        awsLambdaGetFunction, hv, hg, h, if_true, if_false, ite_true,
        ite_false]
      cases hm : mapGet w.functions fn <;> simp_all

/-- Witness for `waitForActive_error_iff_final_check_error`: a concrete
world whose waiter times out and whose final check throttles. -/
theorem waitForActive_error_iff_final_check_error_witness :
    ("fn" ∈ ({ w0 with waiterFails := ["fn"], getFunctionFails := ["fn"] } :
        World).waiterFails) ∧
    ((waitForActive "fn"
        { w0 with waiterFails := ["fn"], getFunctionFails := ["fn"] }).1 ≠ none ↔
      "fn" ∈ ({ w0 with waiterFails := ["fn"], getFunctionFails := ["fn"] } :
        World).getFunctionFails) := by
  exact ⟨by decide, waitForActive_error_iff_final_check_error "fn"
    { w0 with waiterFails := ["fn"], getFunctionFails := ["fn"] } (by decide)⟩

/-! ## Correctness of the depth sort in `DeleteResources` -/

theorem listSwap_length {α : Type} [Inhabited α] (l : List α) (i j : Nat) :
    (listSwap l i j).length = l.length := by
  simp [listSwap]

theorem listSwap_getElem?_ne {α : Type} [Inhabited α] (l : List α)
    (i j k : Nat) (hki : k ≠ i) (hkj : k ≠ j) :
    (listSwap l i j)[k]? = l[k]? := by
  simp [listSwap, List.getElem?_set, (Ne.symm hki), (Ne.symm hkj)]

theorem listSwap_getD_left {α : Type} [Inhabited α] (l : List α) (i j : Nat)
    (hi : i < l.length) (hij : i ≠ j) :
    (listSwap l i j).getD i default = l.getD j default := by
  simp [listSwap, List.getD_eq_getElem?_getD, List.getElem?_set,
    (Ne.symm hij), hi]

theorem listSwap_getD_right {α : Type} [Inhabited α] (l : List α) (i j : Nat)
    (hj : j < l.length) :
    (listSwap l i j).getD j default = l.getD i default := by
  simp [listSwap, List.getD_eq_getElem?_getD, List.getElem?_set, hj]

theorem getD_cons_set_perm {α : Type} [Inhabited α] :
    ∀ (t : List α) (m : Nat) (a : α), m < t.length →
      (t.getD m default :: t.set m a).Perm (a :: t)
  | b :: t', 0, a, _ => by
      simpa using List.Perm.swap a b t'
  | b :: t', m + 1, a, h => by
      simp only [List.getD_cons_succ, List.set_cons_succ]
      exact .trans (List.Perm.swap b (t'.getD m default) _)
        (.trans ((getD_cons_set_perm t' m a (Nat.lt_of_succ_lt_succ h)).cons b)
          (List.Perm.swap a b t'))

theorem listSwap_perm {α : Type} [Inhabited α] :
    ∀ (l : List α) (i j : Nat), i < l.length → j < l.length →
      (listSwap l i j).Perm l
  | [], _, _, hi, _ => absurd hi (by simp)
  | a :: t, 0, 0, _, _ => by
      simp [listSwap]
  | a :: t, 0, m + 1, _, hj => by
      simp only [listSwap, List.getD_cons_succ, List.getD_cons_zero,
        List.set_cons_zero, List.set_cons_succ]
      exact getD_cons_set_perm t m a (by simpa using Nat.lt_of_succ_lt_succ hj)
  | a :: t, m + 1, 0, hi, _ => by
      simp only [listSwap, List.getD_cons_succ, List.getD_cons_zero,
        List.set_cons_zero, List.set_cons_succ]
      exact getD_cons_set_perm t m a (by simpa using Nat.lt_of_succ_lt_succ hi)
  | a :: t, m + 1, k + 1, hi, hj => by
      simp only [listSwap, List.getD_cons_succ, List.set_cons_succ]
      exact (listSwap_perm t m k (Nat.lt_of_succ_lt_succ hi)
        (Nat.lt_of_succ_lt_succ hj)).cons a

theorem sortInner_length (fuel : Nat) :
    ∀ (l : List resourceDepth) (i j : Nat),
      (sortInner l i j fuel).length = l.length := by
  induction fuel with
  | zero => intro l i j; rfl
  | succ f ih =>
      intro l i j
      simp only [sortInner]
      by_cases h : j < l.length
      · simp only [h, if_pos]
        by_cases hgt : (l.getD j default).depth > (l.getD i default).depth
        · simp only [hgt, if_pos, ih, listSwap_length]
        · simp only [hgt, if_neg, ite_false, ih]
      · simp [h]

theorem sortInner_perm (fuel : Nat) :
    ∀ (l : List resourceDepth) (i j : Nat), i < l.length →
      (sortInner l i j fuel).Perm l := by
  induction fuel with
  | zero => intro l i j _; exact List.Perm.refl l
  | succ f ih =>
      intro l i j hi
      simp only [sortInner]
      by_cases h : j < l.length
      · simp only [h, if_pos]
        by_cases hgt : (l.getD j default).depth > (l.getD i default).depth
        · simp only [hgt, if_pos]
          exact (ih (listSwap l i j) i (j + 1)
            (by rw [listSwap_length]; exact hi)).trans
            (listSwap_perm l i j hi h)
        · simp only [hgt, if_neg, ite_false]
          exact ih l i (j + 1) hi
      · simp [h]

theorem sortInner_getElem?_lt (fuel : Nat) :
    ∀ (l : List resourceDepth) (i j k : Nat), k < i → i < j →
      (sortInner l i j fuel)[k]? = l[k]? := by
  induction fuel with
  | zero => intro l i j k _ _; rfl
  | succ f ih =>
      intro l i j k hk hij
      simp only [sortInner]
      by_cases h : j < l.length
      · simp only [h, if_pos]
        by_cases hgt : (l.getD j default).depth > (l.getD i default).depth
        · simp only [hgt, if_pos]
          rw [ih (listSwap l i j) i (j + 1) k hk (by omega)]
          exact listSwap_getElem?_ne l i j k (by omega) (by omega)
        · simp only [hgt, if_neg, ite_false]
          exact ih l i (j + 1) k hk (by omega)
      · simp [h]

theorem sortInner_max (fuel : Nat) :
    ∀ (l : List resourceDepth) (i j : Nat), i < j → l.length ≤ j + fuel →
    (∀ k, i ≤ k → k < j →
      (l.getD k default).depth ≤ (l.getD i default).depth) →
    ∀ k, i ≤ k → k < l.length →
      ((sortInner l i j fuel).getD k default).depth ≤
        ((sortInner l i j fuel).getD i default).depth := by
  induction fuel with
  | zero =>
      intro l i j hij hlen inv k hk1 hk2
      simp only [sortInner]
      exact inv k hk1 (by omega)
  | succ f ih =>
      intro l i j hij hlen inv
      simp only [sortInner]
      by_cases h : j < l.length
      · simp only [h, if_pos]
        by_cases hgt : (l.getD j default).depth > (l.getD i default).depth
        · simp only [hgt, if_pos]
          have hi : i < l.length := by omega
          have hLi : (listSwap l i j).getD i default = l.getD j default :=
            listSwap_getD_left l i j hi (by omega)
          have hLj : (listSwap l i j).getD j default = l.getD i default :=
            listSwap_getD_right l i j h
          have inv' : ∀ k, i ≤ k → k < j + 1 →
              ((listSwap l i j).getD k default).depth ≤
                ((listSwap l i j).getD i default).depth := by
            intro k hk1 hk2
            by_cases hki : k = i
            · rw [hki]
            · by_cases hkj : k = j
              · rw [hkj, hLi, hLj]
                exact le_of_lt hgt
              · have hkk : (listSwap l i j).getD k default =
                    l.getD k default := by
                  rw [List.getD_eq_getElem?_getD, List.getD_eq_getElem?_getD,
                    listSwap_getElem?_ne l i j k hki hkj]
                rw [hkk, hLi]
                exact le_trans (inv k hk1 (by omega)) (le_of_lt hgt)
          intro k hk1 hk2
          exact ih (listSwap l i j) i (j + 1) (by omega)
            (by rw [listSwap_length]; omega) inv' k hk1
            (by rw [listSwap_length]; exact hk2)
        · simp only [hgt, if_neg, ite_false]
          have inv' : ∀ k, i ≤ k → k < j + 1 →
              (l.getD k default).depth ≤ (l.getD i default).depth := by
            intro k hk1 hk2
            by_cases hkj : k = j
            · rw [hkj]; omega
            · exact inv k hk1 (by omega)
          exact ih l i (j + 1) (by omega) (by omega) inv'
      · simp only [h, if_neg, ite_false]
        intro k hk1 hk2
        exact inv k hk1 (by omega)

theorem sortOuter_length : ∀ (fuel : Nat) (l : List resourceDepth) (i : Nat),
    (sortOuter l i fuel).length = l.length
  | 0, _, _ => rfl
  | f + 1, l, i => by
      simp only [sortOuter]
      by_cases h : i < l.length
      · simp only [h, if_pos]
        rw [sortOuter_length f _ (i + 1), sortInner_length]
      · simp [h]

theorem sortOuter_perm : ∀ (fuel : Nat) (l : List resourceDepth) (i : Nat),
    (sortOuter l i fuel).Perm l
  | 0, l, _ => List.Perm.refl l
  | f + 1, l, i => by
      simp only [sortOuter]
      by_cases h : i < l.length
      · simp only [h, if_pos]
        exact (sortOuter_perm f _ (i + 1)).trans
          (sortInner_perm l.length l i (i + 1) h)
      · simp [h]

theorem sortInner_take (fuel : Nat) (l : List resourceDepth) (i j : Nat)
    (hij : i < j) :
    (sortInner l i j fuel).take i = l.take i := by
  apply List.ext_getElem?
  intro n
  simp only [List.getElem?_take]
  by_cases hn : n < i
  · simp [hn, sortInner_getElem?_lt fuel l i j n hn hij]
  · simp [hn]

theorem sortInner_drop_perm (fuel : Nat) (l : List resourceDepth) (i j : Nat)
    (hij : i < j) (hi : i < l.length) :
    ((sortInner l i j fuel).drop i).Perm (l.drop i) := by
  have hp := sortInner_perm fuel l i j hi
  have ht := sortInner_take fuel l i j hij
  have key : (l.take i ++ (sortInner l i j fuel).drop i).Perm
      (l.take i ++ l.drop i) := by
    rw [List.take_append_drop, ← ht, List.take_append_drop]
    exact hp
  exact (List.perm_append_left_iff _).mp key

theorem sortOuter_sorted_aux :
    ∀ (fuel : Nat) (l : List resourceDepth) (i : Nat),
      l.length ≤ i + fuel →
      (∀ a b, a < i → a < b → b < l.length →
        (l.getD b default).depth ≤ (l.getD a default).depth) →
      ∀ a b, a < b → b < (sortOuter l i fuel).length →
        ((sortOuter l i fuel).getD b default).depth ≤
          ((sortOuter l i fuel).getD a default).depth
  | 0, l, i => by
      intro hlen inv a b hab hb
      simp only [sortOuter] at hb ⊢
      exact inv a b (by omega) hab hb
  | f + 1, l, i => by
      intro hlen inv
      by_cases h : i < l.length
      · have hlen₁ := sortInner_length l.length l i (i + 1)
        have inv₁ : ∀ a b, a < i + 1 → a < b →
            b < (sortInner l i (i + 1) l.length).length →
            ((sortInner l i (i + 1) l.length).getD b default).depth ≤
              ((sortInner l i (i + 1) l.length).getD a default).depth := by
          intro a b ha hab hb
          rw [hlen₁] at hb
          by_cases hai : a < i
          · have hga : (sortInner l i (i + 1) l.length).getD a default =
                l.getD a default := by
              rw [List.getD_eq_getElem?_getD, List.getD_eq_getElem?_getD,
                sortInner_getElem?_lt l.length l i (i + 1) a hai (by omega)]
            by_cases hbi : b < i
            · have hgb : (sortInner l i (i + 1) l.length).getD b default =
                  l.getD b default := by
                rw [List.getD_eq_getElem?_getD, List.getD_eq_getElem?_getD,
                  sortInner_getElem?_lt l.length l i (i + 1) b hbi (by omega)]
              rw [hga, hgb]
              exact inv a b hai hab hb
            · -- b is in the suffix: its value is one of the original
              -- suffix values, all of which position a dominates.
              have hbl : b < (sortInner l i (i + 1) l.length).length := by
                omega
              have hval : (sortInner l i (i + 1) l.length).getD b default =
                  (sortInner l i (i + 1) l.length)[b] := by
                rw [List.getD_eq_getElem?_getD, List.getElem?_eq_getElem hbl]
                rfl
              have hbd : b - i <
                  ((sortInner l i (i + 1) l.length).drop i).length := by
                rw [List.length_drop]; omega
              have hmemdrop : (sortInner l i (i + 1) l.length)[b] ∈
                  (sortInner l i (i + 1) l.length).drop i := by
                have hdg : ((sortInner l i (i + 1) l.length).drop i)[b - i]? =
                    (sortInner l i (i + 1) l.length)[i + (b - i)]? :=
                  List.getElem?_drop _ _ _
                have hidx : i + (b - i) = b := by omega
                rw [hidx] at hdg
                exact List.mem_iff_getElem?.mpr
                  ⟨b - i, by rw [hdg]; exact List.getElem?_eq_getElem hbl⟩
              have hmem : (sortInner l i (i + 1) l.length)[b] ∈ l.drop i :=
                (sortInner_drop_perm l.length l i (i + 1) (by omega)
                  h).mem_iff.mp hmemdrop
              obtain ⟨m, hm, hmeq⟩ := List.mem_iff_getElem.mp hmem
              rw [List.length_drop] at hm
              have hmeq' : (l.drop i)[m] = l[i + m] := List.getElem_drop _
              have hgb : (sortInner l i (i + 1) l.length).getD b default =
                  l.getD (i + m) default := by
                rw [hval, ← hmeq, hmeq', List.getD_eq_getElem?_getD,
                  List.getElem?_eq_getElem (by omega : i + m < l.length)]
                rfl
              rw [hga, hgb]
              exact inv a (i + m) hai (by omega) (by omega)
          · have hai' : a = i := by omega
            rw [hai']
            have hmax := sortInner_max l.length l i (i + 1) (by omega)
              (by omega)
              (by intro k hk1 hk2
                  have hki : k = i := by omega
                  rw [hki])
            exact hmax b (by omega) (by omega)
        have hrec := sortOuter_sorted_aux f (sortInner l i (i + 1) l.length)
          (i + 1) (by omega) inv₁
        intro a b hab hb
        simp only [sortOuter, h, if_pos] at hb ⊢
        exact hrec a b hab hb
      · intro a b hab hb
        simp only [sortOuter, h, if_neg, ite_false] at hb ⊢
        exact inv a b (by omega) hab hb

theorem sortResourcesByDepth_perm (resources : List (String × ResourceInfo)) :
    (sortResourcesByDepth resources).Perm (buildResourceDepths resources) :=
  sortOuter_perm _ _ _

theorem sortResourcesByDepth_sorted (resources : List (String × ResourceInfo)) :
    (sortResourcesByDepth resources).Pairwise (fun a b => b.depth ≤ a.depth) := by
  rw [List.pairwise_iff_getElem]
  intro a b ha hb hab
  have hs := sortOuter_sorted_aux (buildResourceDepths resources).length
    (buildResourceDepths resources) 0 (by omega)
    (by intro a b h; omega) a b hab hb
  have hsa : (sortResourcesByDepth resources).getD a default =
      (sortResourcesByDepth resources)[a] := by
    rw [List.getD_eq_getElem?_getD, List.getElem?_eq_getElem ha]; rfl
  have hsb : (sortResourcesByDepth resources).getD b default =
      (sortResourcesByDepth resources)[b] := by
    rw [List.getD_eq_getElem?_getD, List.getElem?_eq_getElem hb]; rfl
  rw [← hsa, ← hsb]
  exact hs

/-! ## Trace shape of the router teardown -/

theorem DeleteMethod_trace (apiID rid m : String) (w : World) :
    (DeleteMethod apiID rid m w).2.2 = [Op.opDeleteMethod apiID rid m] := by
  unfold DeleteMethod awsApigwDeleteMethod
  by_cases h : (rid, m) ∈ w.gwMethods <;> simp [h] <;> split <;> rfl

theorem deleteMethodsLoop_trace (apiID : String) :
    ∀ (routes : List RouteState) (w : World),
      (deleteMethodsLoop apiID routes w).2 =
        routes.map (fun r => Op.opDeleteMethod apiID r.ResourceID r.Method)
  | [], _ => rfl
  | route :: rest, w => by
      simp only [deleteMethodsLoop, List.map_cons]
      rcases hx : DeleteMethod apiID route.ResourceID route.Method w with
        ⟨e, w1, t1⟩
      have ht1 : t1 = [Op.opDeleteMethod apiID route.ResourceID route.Method] := by
        have := DeleteMethod_trace apiID route.ResourceID route.Method w
        rw [hx] at this
        exact this
      rcases hy : deleteMethodsLoop apiID rest w1 with ⟨w2, t2⟩
      have ht2 : t2 = rest.map
          (fun r => Op.opDeleteMethod apiID r.ResourceID r.Method) := by
        have := deleteMethodsLoop_trace apiID rest w1
        rw [hy] at this
        exact this
      simp [ht1, ht2]

theorem awsApigwDeleteResource_trace (apiID rid : String) (w : World) :
    (awsApigwDeleteResource apiID rid w).2.2 = [Op.opDeleteResource apiID rid] := by
  unfold awsApigwDeleteResource
  cases mapGet w.deleteResourceFail rid <;> simp <;> split <;> rfl

theorem deleteResourcesLoop_trace (apiID : String) :
    ∀ (rs : List resourceDepth) (w : World),
      (deleteResourcesLoop apiID rs w).2 =
        rs.flatMap (fun r =>
          [Op.opDeleteResource apiID r.resourceID, Op.opSleep 200])
  | [], _ => rfl
  | r :: rest, w => by
      simp only [deleteResourcesLoop, List.flatMap_cons]
      rcases hx : awsApigwDeleteResource apiID r.resourceID w with ⟨e, w1, t1⟩
      have ht1 : t1 = [Op.opDeleteResource apiID r.resourceID] := by
        have := awsApigwDeleteResource_trace apiID r.resourceID w
        rw [hx] at this
        exact this
      rcases hy : deleteResourcesLoop apiID rest w1 with ⟨w2, t2⟩
      have ht2 : t2 = rest.flatMap (fun r =>
          [Op.opDeleteResource apiID r.resourceID, Op.opSleep 200]) := by
        have := deleteResourcesLoop_trace apiID rest w1
        rw [hy] at this
        exact this
      simp [ht1, ht2]

theorem DeleteResources_spec (apiID : String)
    (resources : List (String × ResourceInfo)) (w : World) :
    (DeleteResources apiID resources w).1 = none ∧
    (DeleteResources apiID resources w).2.2 =
      (sortResourcesByDepth resources).flatMap (fun r =>
        [Op.opDeleteResource apiID r.resourceID, Op.opSleep 200]) := by
  unfold DeleteResources
  by_cases h : resources = []
  · subst h
    simp [sortResourcesByDepth, buildResourceDepths, sortOuter]
  · rw [if_neg h]
    rcases hy : deleteResourcesLoop apiID (sortResourcesByDepth resources) w
      with ⟨w1, t1⟩
    simp only [hy]
    have ht1 := deleteResourcesLoop_trace apiID (sortResourcesByDepth resources) w
    rw [hy] at ht1
    exact ⟨trivial, ht1⟩

theorem DeleteRoutesOrchestration_spec (apiID : String)
    (routes : List RouteState) (resources : List (String × ResourceInfo))
    (w : World) :
    (DeleteRoutesOrchestration apiID routes resources w).1 = none ∧
    (DeleteRoutesOrchestration apiID routes resources w).2.2 =
      routes.map (fun r => Op.opDeleteMethod apiID r.ResourceID r.Method) ++
      Op.opSleep 500 ::
      (sortResourcesByDepth resources).flatMap (fun r =>
        [Op.opDeleteResource apiID r.resourceID, Op.opSleep 200]) := by
  unfold DeleteRoutesOrchestration
  rcases hx : deleteMethodsLoop apiID routes w with ⟨w1, t1⟩
  simp only [hx]
  rcases hy : DeleteResources apiID resources w1 with ⟨e, w2, t2⟩
  simp only [hy]
  have ht1 := deleteMethodsLoop_trace apiID routes w
  rw [hx] at ht1
  have hspec := DeleteResources_spec apiID resources w1
  rw [hy] at hspec
  refine ⟨hspec.1, ?_⟩
  have ht1' : t1 = routes.map
      (fun r => Op.opDeleteMethod apiID r.ResourceID r.Method) := ht1
  have ht2' : t2 = (sortResourcesByDepth resources).flatMap (fun r =>
      [Op.opDeleteResource apiID r.resourceID, Op.opSleep 200]) := hspec.2
  simp [ht1', ht2']

theorem flatten_slash_count :
    ∀ (segs : List (List Char)), (∀ s ∈ segs, '/' ∉ s) →
      List.count '/' ((segs.map (fun s => '/' :: s)).flatten) = segs.length := by
  intro segs
  induction segs with
  | nil => intro _; rfl
  | cons s rest ih =>
      intro h
      simp only [List.map_cons, List.flatten_cons, List.count_append,
        List.count_cons, List.length_cons]
      have hs : '/' ∉ s := (h s (by simp))
      have h0 : List.count '/' s = 0 := List.count_eq_zero.mpr hs
      rw [h0, ih (fun x hx => h x (by simp [hx]))]
      simp [Nat.add_comm]

theorem canonKey_count (p : String) (segs : List (List Char))
    (h : CanonKey p segs) : goCountSlash p = segs.length := by
  obtain ⟨_, hseg, heq⟩ := h
  unfold goCountSlash
  rw [heq]
  exact flatten_slash_count segs (fun s hs => (hseg s hs).2)

/-- **C1.** The router teardown first deletes every route's method binding
(one `DeleteMethod` per recorded route), then — after the consistency
wait — deletes the path resources exactly in the order of the code's
depth sort.  That sort is a permutation of the recorded resources ordered
by nonincreasing `depth`, where `depth = strings.Count(path, "/")`; for
every canonically shaped key `/s1/.../sn` this count equals the number of
path segments, so a resource with more segments is always deleted before
any resource with fewer, ties broken deterministically by the sort. -/
theorem DeleteRoutesOrchestration_order (apiID : String)
    (routes : List RouteState) (resources : List (String × ResourceInfo))
    (w : World) :
    ((DeleteRoutesOrchestration apiID routes resources w).2.2 =
      routes.map (fun r => Op.opDeleteMethod apiID r.ResourceID r.Method) ++
      Op.opSleep 500 ::
      (sortResourcesByDepth resources).flatMap (fun r =>
        [Op.opDeleteResource apiID r.resourceID, Op.opSleep 200])) ∧
    (sortResourcesByDepth resources).Pairwise (fun a b => b.depth ≤ a.depth) ∧
    (sortResourcesByDepth resources).Perm (buildResourceDepths resources) ∧
    (∀ p segs, CanonKey p segs → goCountSlash p = segs.length) :=
  ⟨(DeleteRoutesOrchestration_spec apiID routes resources w).2,
   sortResourcesByDepth_sorted resources,
   sortResourcesByDepth_perm resources,
   canonKey_count⟩

/-- Witness for `DeleteRoutesOrchestration_order` at a concrete record. -/
theorem DeleteRoutesOrchestration_order_witness :
    ((DeleteRoutesOrchestration "api1" [⟨"/a", "GET", "NONE", "", "r1"⟩]
        [("/a", ⟨"r1", "a"⟩), ("/a/b", ⟨"r2", "b"⟩)] w0).2.2 =
      [Op.opDeleteMethod "api1" "r1" "GET", Op.opSleep 500,
       Op.opDeleteResource "api1" "r2", Op.opSleep 200,
       Op.opDeleteResource "api1" "r1", Op.opSleep 200]) ∧
    goCountSlash "/a/b" = [['a'], ['b']].length := by
  have h := DeleteRoutesOrchestration_order "api1"
    [⟨"/a", "GET", "NONE", "", "r1"⟩]
    [("/a", ⟨"r1", "a"⟩), ("/a/b", ⟨"r2", "b"⟩)] w0
  refine ⟨?_, h.2.2.2 "/a/b" [['a'], ['b']]
    (by exact ⟨by decide, by decide, by decide⟩)⟩
  rw [h.1]
  decide

/-! ## Teardown completeness (C7) -/

theorem DeleteFunction_trace (fn : String) (w : World) :
    (DeleteFunction fn w).2.2 = [Op.opDeleteFunction fn] := by
  unfold DeleteFunction awsLambdaDeleteFunction
  cases mapGet w.functions fn <;> simp <;> split <;> rfl

theorem DeleteRole_trace (rn : String) (w : World) :
    (DeleteRole rn w).2.2 = [Op.opDeleteRole rn] := by
  unfold DeleteRole awsIamDeleteRole
  by_cases h : rn ∈ w.roles <;> simp [h] <;> split <;> rfl

theorem DetachPolicy_trace (rn arn : String) (w : World) :
    (DetachPolicy rn arn w).2.2 = [Op.opDetachRolePolicy rn arn] := by
  unfold DetachPolicy awsIamDetachRolePolicy
  by_cases h : (rn, arn) ∈ w.rolePolicies <;> simp [h] <;> split <;> rfl

theorem DeleteRoleAndPolicies_deleteRole_mem (rn : String)
    (arns : List String) (w : World) :
    Op.opDeleteRole rn ∈ (DeleteRoleAndPolicies rn arns w).2.2 := by
  unfold DeleteRoleAndPolicies
  rcases h1 : DeleteRoleAndPolicies.detachLoop rn arns w with ⟨w1, t1⟩
  simp only [h1]
  rcases h2 : DetachPolicy rn
    "arn:aws:iam::aws:policy/service-role/AWSLambdaBasicExecutionRole" w1 with
    ⟨e2, w2, t2⟩
  simp only [h2]
  rcases h3 : DeleteRole rn w2 with ⟨e3, w3, t3⟩
  simp only [h3]
  have ht3 := DeleteRole_trace rn w2
  rw [h3] at ht3
  have : Op.opDeleteRole rn ∈ t3 := by
    have ht3' : t3 = [Op.opDeleteRole rn] := ht3
    rw [ht3']
    simp
  simp [this]

theorem DeleteLogGroup_some_trace (name : String) (w : World)
    (r : Option GoErr) (w' : World) (t : List Op)
    (h : DeleteLogGroup name w = some (r, w', t)) :
    t = [Op.opDeleteLogGroup name] := by
  unfold DeleteLogGroup awsCwDeleteLogGroup at h
  by_cases hm : name ∈ w.logGroups <;>
    simp [hm, isAPIErrorCode, errorCodeOf, nilAPIError, optBNot] at h <;>
    tauto

theorem DeleteRoutesOrchestration_resource_mem (apiID : String)
    (routes : List RouteState) (resources : List (String × ResourceInfo))
    (w : World) :
    ∀ kv ∈ resources,
      Op.opDeleteResource apiID kv.2.ResourceID ∈
        (DeleteRoutesOrchestration apiID routes resources w).2.2 := by
  intro kv hkv
  rw [(DeleteRoutesOrchestration_spec apiID routes resources w).2]
  have hbuild : (⟨kv.2.ResourceID, kv.1, goCountSlash kv.1⟩ : resourceDepth) ∈
      buildResourceDepths resources := by
    unfold buildResourceDepths
    exact List.mem_map_of_mem _ hkv
  have hsorted : (⟨kv.2.ResourceID, kv.1, goCountSlash kv.1⟩ : resourceDepth) ∈
      sortResourcesByDepth resources :=
    (sortResourcesByDepth_perm resources).mem_iff.mpr hbuild
  have : Op.opDeleteResource apiID kv.2.ResourceID ∈
      (sortResourcesByDepth resources).flatMap (fun r =>
        [Op.opDeleteResource apiID r.resourceID, Op.opSleep 200]) := by
    rw [List.mem_flatMap]
    exact ⟨_, hsorted, by simp⟩
  simp [this]

/-- **C7, counterexample.** A teardown in which deleting the only path
resource (`/a`, id `res-0`) fails with `AccessDeniedException`: the delete
is attempted (and the later stages run), but `DeleteDeployment` returns
the nil error — the aggregate error does not name the failed resource,
because `DeleteResources` only logs per-resource failures and always
returns success. -/
theorem DeleteDeployment_failed_resource_not_reported :
    (DeleteDeployment stC7 wC7).map (fun r => r.1) = some none ∧
    (deleteOpsOf stC7 wC7).count (Op.opDeleteResource "api1" "res-0") = 1 ∧
    Op.opDeleteFunction "fn" ∈ deleteOpsOf stC7 wC7 ∧
    mapGet wC7.deleteResourceFail "res-0" =
      some "AccessDeniedException: not allowed" := by
  decide

/-- **C7, amended.** `DeleteResources` always returns the nil error, no
matter which per-resource deletions fail (they are only logged); and every
non-panicking `DeleteDeployment` run attempts every step — the function
deletion, the role deletion, the log-group deletion and one resource
deletion per recorded path resource — with no early abort. -/
theorem DeleteDeployment_always_proceeds (st : ResourceState) (w : World)
    (h : (DeleteDeployment st w).isSome = true) :
    (∀ apiID resources w₁, (DeleteResources apiID resources w₁).1 = none) ∧
    Op.opDeleteFunction st.FunctionName ∈ deleteOpsOf st w ∧
    Op.opDeleteRole st.RoleName ∈ deleteOpsOf st w ∧
    Op.opDeleteLogGroup st.LogGroup ∈ deleteOpsOf st w ∧
    (∀ kv ∈ st.Resources,
      Op.opDeleteResource st.APIGatewayID kv.2.ResourceID ∈
        deleteOpsOf st w) := by
  refine ⟨fun apiID resources w₁ => (DeleteResources_spec apiID resources w₁).1, ?_⟩
  rcases h1 : DeleteRoutesOrchestration st.APIGatewayID st.Routes
    st.Resources w with ⟨e1, w1, t1⟩
  rcases h2 : RemovePermission st.FunctionName
    ("apigateway-" ++ st.APIGatewayID) w1 with ⟨e2, w2, t2⟩
  rcases h3 : DeleteFunction st.FunctionName w2 with ⟨e3, w3, t3⟩
  rcases h4 : DeleteRoleAndPolicies st.RoleName st.AttachedPolicyARNs w3 with
    ⟨e4, w4, t4⟩
  rcases h5 : DeleteLogGroup st.LogGroup w4 with _ | ⟨e5, w5, t5⟩
  · have hnone : DeleteDeployment st w = none := by
      unfold DeleteDeployment
      simp only [h1, h2, h3, h4, h5]
    rw [hnone] at h
    simp at h
  · have key : ∀ (c : Prop) (inst : Decidable c) (x y : Option GoErr),
        (match (if c then some (x, w5, t1 ++ t2 ++ t3 ++ t4 ++ t5)
                else some (y, w5, t1 ++ t2 ++ t3 ++ t4 ++ t5)) with
         | some (_, _, ops) => ops
         | none => ([] : List Op)) = t1 ++ t2 ++ t3 ++ t4 ++ t5 := by
      intro c inst x y
      by_cases hc : c
      · rw [if_pos hc]
      · rw [if_neg hc]
    have hops : deleteOpsOf st w = t1 ++ t2 ++ t3 ++ t4 ++ t5 := by
      unfold deleteOpsOf DeleteDeployment
      simp only [h1, h2, h3, h4, h5]
      exact key _ _ _ _
    have ht3 : t3 = [Op.opDeleteFunction st.FunctionName] := by
      have := DeleteFunction_trace st.FunctionName w2
      rw [h3] at this
      exact this
    have ht4 : Op.opDeleteRole st.RoleName ∈ t4 := by
      have := DeleteRoleAndPolicies_deleteRole_mem st.RoleName
        st.AttachedPolicyARNs w3
      rw [h4] at this
      exact this
    have ht5 : t5 = [Op.opDeleteLogGroup st.LogGroup] :=
      DeleteLogGroup_some_trace st.LogGroup w4 e5 w5 t5 h5
    have ht1 : ∀ kv ∈ st.Resources,
        Op.opDeleteResource st.APIGatewayID kv.2.ResourceID ∈ t1 := by
      intro kv hkv
      have := DeleteRoutesOrchestration_resource_mem st.APIGatewayID
        st.Routes st.Resources w kv hkv
      rw [h1] at this
      exact this
    rw [hops]
    exact ⟨by simp [ht3], by simp [ht4], by simp [ht5],
      fun kv hkv => by simp [ht1 kv hkv]⟩

/-- Witness for `DeleteDeployment_always_proceeds` at the concrete
scenario record. -/
theorem DeleteDeployment_always_proceeds_witness :
    ((DeleteDeployment stC7 wC7).isSome = true) ∧
    (Op.opDeleteFunction stC7.FunctionName ∈ deleteOpsOf stC7 wC7) := by
  have h := DeleteDeployment_always_proceeds stC7 wC7 (by decide)
  exact ⟨by decide, h.2.1⟩

/-! ## Path coverage of the router reconciler (C8) -/

theorem mapGet_mapSet_self {β : Type} (m : List (String × β)) (k : String)
    (v : β) : mapGet (mapSet m k v) k = some v := by
  induction m with
  | nil => simp [mapSet, mapGet]
  | cons kv rest ih =>
      rcases kv with ⟨k', v'⟩
      by_cases h : k' = k <;> simp [mapSet, mapGet, h, ih]

theorem mapGet_mapSet_preserve {β : Type} (m : List (String × β))
    (k k' : String) (v : β) (h : mapGet m k ≠ none) :
    mapGet (mapSet m k' v) k ≠ none := by
  by_cases hk : k' = k
  · rw [hk, mapGet_mapSet_self]
    simp
  · induction m with
    | nil => simp [mapGet] at h
    | cons kv rest ih =>
        rcases kv with ⟨a, b⟩
        by_cases ha : a = k'
        · simp only [mapSet, ha, if_pos]
          simp only [mapGet]
          by_cases hak : k' = k
          · exact absurd hak hk
          · simp only [hak, if_neg, ite_false]
            simp only [mapGet, ha, hak, if_neg, ite_false] at h
            exact h
        · simp only [mapSet, ha, if_neg, ite_false]
          simp only [mapGet] at h ⊢
          by_cases hak : a = k
          · simp [hak]
          · simp only [hak, if_neg, ite_false] at h ⊢
            exact ih h

theorem mergeResources_preserve :
    ∀ (m acc : List (String × ResourceInfo)) (k : String),
      (mapGet acc k ≠ none ∨ mapGet m k ≠ none) →
      mapGet (ensureRoutesLoop.mergeResources acc m) k ≠ none := by
  intro m
  induction m with
  | nil =>
      intro acc k h
      simp only [ensureRoutesLoop.mergeResources]
      rcases h with h | h
      · exact h
      · simp [mapGet] at h
  | cons kv rest ih =>
      intro acc k h
      rcases kv with ⟨k', v'⟩
      simp only [ensureRoutesLoop.mergeResources]
      apply ih
      rcases h with h | h
      · exact Or.inl (mapGet_mapSet_preserve acc k k' v' h)
      · by_cases hk : k' = k
        · left
          rw [hk, mapGet_mapSet_self]
          simp
        · right
          simp only [mapGet, hk, if_neg, ite_false] at h
          exact h

theorem ensurePathLoop_keys (apiID : String) :
    ∀ (parts : List String) (pid cp : String)
      (res : List (String × ResourceInfo)) (w : World) (rid : String)
      (m : List (String × ResourceInfo)) (w' : World) (t : List Op),
      ensurePathLoop apiID parts pid cp res w = (((rid, m), none), w', t) →
      (∀ k, mapGet res k ≠ none → mapGet m k ≠ none) ∧
      (∀ p ∈ cumPathsFrom cp parts, mapGet m p ≠ none) := by
  intro parts
  induction parts with
  | nil =>
      intro pid cp res w rid m w' t h
      simp only [ensurePathLoop, Prod.mk.injEq] at h
      obtain ⟨⟨⟨_, hm⟩, _⟩, _, _⟩ := h
      subst hm
      exact ⟨fun k hk => hk, by simp [cumPathsFrom]⟩
  | cons part rest ih =>
      intro pid cp res w rid m w' t h
      have step : ∀ (id2 : String) (wa wb : World) (tb : List Op),
          ensurePathLoop apiID rest id2 (cp ++ "/" ++ part)
            (mapSet res (cp ++ "/" ++ part) ⟨id2, part⟩) wa =
            (((rid, m), none), wb, tb) →
          (∀ k, mapGet res k ≠ none → mapGet m k ≠ none) ∧
          (∀ p ∈ cumPathsFrom cp (part :: rest), mapGet m p ≠ none) := by
        intro id2 wa wb tb hrec
        have hih := ih id2 (cp ++ "/" ++ part) _ wa rid m wb tb hrec
        refine ⟨fun k hk => hih.1 k (mapGet_mapSet_preserve res k _ _ hk), ?_⟩
        intro p hp
        simp only [cumPathsFrom, List.mem_cons] at hp
        rcases hp with hp | hp
        · rw [hp]
          apply hih.1
          rw [mapGet_mapSet_self]
          simp
        · exact hih.2 p hp
      simp only [ensurePathLoop] at h
      rcases hf : findResourceByPath apiID (cp ++ "/" ++ part) w with
        ⟨⟨existing, ferr⟩, w1, t1⟩
      rw [hf] at h
      split at h
      · rcases hrec0 : ensurePathLoop apiID rest existing (cp ++ "/" ++ part)
          (mapSet res (cp ++ "/" ++ part) ⟨existing, part⟩) w1 with
          ⟨⟨⟨rid', m'⟩, err'⟩, w2, t2⟩
        rw [hrec0] at h
        simp only [Prod.mk.injEq] at h
        obtain ⟨⟨⟨hrid, hm⟩, herr⟩, _, _⟩ := h
        subst hrid; subst hm
        rw [herr] at hrec0
        exact step _ _ _ _ hrec0
      · rcases hc : awsApigwCreateResource apiID pid part w1 with
          ⟨⟨created, cerr⟩, w2, t2⟩
        rw [hc] at h
        split at h
        · -- cerr = some e, ConflictException branch structure
          split at h
          · rcases hf2 : findResourceByPath apiID (cp ++ "/" ++ part) w2 with
              ⟨⟨existing2, ferr2⟩, w3, t3⟩
            rw [hf2] at h
            split at h
            · rcases hrec0 : ensurePathLoop apiID rest existing2
                (cp ++ "/" ++ part)
                (mapSet res (cp ++ "/" ++ part) ⟨existing2, part⟩) w3 with
                ⟨⟨⟨rid', m'⟩, err'⟩, w4, t4⟩
              rw [hrec0] at h
              simp only [Prod.mk.injEq] at h
              obtain ⟨⟨⟨hrid, hm⟩, herr⟩, _, _⟩ := h
              subst hrid; subst hm
              rw [herr] at hrec0
              exact step _ _ _ _ hrec0
            · simp at h
          · simp at h
        · -- cerr = none: the created entry (or its absence)
          split at h
          · rcases hrec0 : ensurePathLoop apiID rest _ (cp ++ "/" ++ part)
              (mapSet res (cp ++ "/" ++ part) ⟨_, part⟩) w2 with
              ⟨⟨⟨rid', m'⟩, err'⟩, w3, t3⟩
            rw [hrec0] at h
            simp only [Prod.mk.injEq] at h
            obtain ⟨⟨⟨hrid, hm⟩, herr⟩, _, _⟩ := h
            subst hrid; subst hm
            rw [herr] at hrec0
            exact step _ _ _ _ hrec0
          · simp at h

theorem EnsurePath_keys (apiID rootID path : String) (w : World)
    (rid : String) (m : List (String × ResourceInfo)) (w' : World)
    (t : List Op)
    (h : EnsurePath apiID rootID path w = (((rid, m), none), w', t)) :
    ∀ p ∈ cumulativePaths path, mapGet m p ≠ none := by
  unfold EnsurePath at h
  unfold cumulativePaths
  by_cases ht : goTrimSlashes path = ""
  · simp [ht]
  · rw [if_neg ht] at h
    rw [if_neg ht]
    exact (ensurePathLoop_keys apiID (goSplitSlash (goTrimSlashes path))
      rootID "" [] w rid m w' t h).2

theorem PutMethodAndIntegration_run (apiID rid m fa rg auth aid : String)
    (w : World) :
    ∃ w2, PutMethodAndIntegration apiID rid m fa rg auth aid w =
      (none, w2, mkPutOps apiID rid m
        (if auth ≠ "NONE" ∧ aid ≠ "" ∧ aid ≠ "<nil>" then some aid
         else none)) :=
  ⟨_, rfl⟩

theorem ensureRoutesLoop_spec (apiID fa rg rootID : String) :
    ∀ (routes : List RouteConfig) (resAcc : List (String × ResourceInfo))
      (rsAcc : List RouteState) (w : World)
      (resOut : List (String × ResourceInfo)) (rsOut : List RouteState)
      (w' : World) (t : List Op),
      ensureRoutesLoop apiID fa rg rootID routes resAcc rsAcc w =
        (((resOut, rsOut), none), w', t) →
      (∀ k, mapGet resAcc k ≠ none → mapGet resOut k ≠ none) ∧
      (∀ r ∈ routes, ∀ p ∈ cumulativePaths r.Path,
        mapGet resOut p ≠ none) ∧
      (∃ news, rsOut = rsAcc ++ news ∧
        List.Forall₂ (fun (rs : RouteState) (r : RouteConfig) =>
          rs.Path = r.Path ∧ rs.Method = r.Method ∧
          rs.Authorization = r.Authorization ∧
          rs.AuthorizerID = r.AuthorizerID) news routes ∧
        RoutesResolved apiID fa rg rootID routes news w w' t) := by
  intro routes
  induction routes with
  | nil =>
      intro resAcc rsAcc w resOut rsOut w' t h
      simp only [ensureRoutesLoop, Prod.mk.injEq] at h
      obtain ⟨⟨⟨hres, hrs⟩, _⟩, hw, ht⟩ := h
      subst hres; subst hrs
      exact ⟨fun k hk => hk, by simp, [], by simp, List.Forall₂.nil,
        hw.symm, ht.symm⟩
  | cons r rest ih =>
      intro resAcc rsAcc w resOut rsOut w' t h
      simp only [ensureRoutesLoop] at h
      rcases hep : EnsurePath apiID rootID r.Path w with
        ⟨⟨⟨resourceID, pathResources⟩, perr⟩, w1, t1⟩
      rw [hep] at h
      split at h
      · simp at h
      · rename_i eP heqP
        have hperr : perr = none := heqP
        rcases hpm : PutMethodAndIntegration apiID resourceID r.Method fa rg
          r.Authorization r.AuthorizerID w1 with ⟨merr, w2, t2⟩
        rw [hpm] at h
        split at h
        · simp at h
        · rcases hrec : ensureRoutesLoop apiID fa rg rootID rest
            (ensureRoutesLoop.mergeResources resAcc pathResources)
            (rsAcc ++ [⟨r.Path, r.Method, r.Authorization, r.AuthorizerID,
              resourceID⟩]) w2 with ⟨⟨⟨resOut', rsOut'⟩, err'⟩, w3, t3⟩
          rw [hrec] at h
          simp only [Prod.mk.injEq] at h
          obtain ⟨⟨⟨hres, hrs⟩, herr⟩, hw, ht⟩ := h
          subst hres; subst hrs
          rw [herr] at hrec
          have hih := ih _ _ w2 _ _ w3 t3 hrec
          refine ⟨?_, ?_, ?_⟩
          · intro k hk
            exact hih.1 k (mergeResources_preserve pathResources resAcc k
              (Or.inl hk))
          · intro r' hr' p hp
            rcases List.mem_cons.mp hr' with hr' | hr'
            · rw [hperr] at hep
              have hkeys := EnsurePath_keys apiID rootID r.Path w resourceID
                pathResources w1 t1 hep
              rw [hr'] at hp
              exact hih.1 p (mergeResources_preserve pathResources resAcc p
                (Or.inr (hkeys p hp)))
            · exact hih.2.1 r' hr' p hp
          · obtain ⟨news, hnews, hfa, hrr⟩ := hih.2.2
            obtain ⟨wmv, hrun⟩ := PutMethodAndIntegration_run apiID
              resourceID r.Method fa rg r.Authorization r.AuthorizerID w1
            rw [hpm] at hrun
            simp only [Prod.mk.injEq] at hrun
            refine ⟨⟨r.Path, r.Method, r.Authorization, r.AuthorizerID,
              resourceID⟩ :: news, ?_,
              List.Forall₂.cons ⟨rfl, rfl, rfl, rfl⟩ hfa, ?_⟩
            · rw [hnews, List.append_assoc]
              rfl
            · rw [hrun.1, hrun.2.2] at hpm
              rw [hperr] at hep
              refine ⟨pathResources, w1, t1, w2, t3, hep, hpm, rfl, rfl,
                rfl, rfl, ?_, ?_⟩
              · rw [← hw]
                exact hrr
              · rw [← ht, hrun.2.2]

/-- **C8, amended.** For every successful `EnsureRoutesAndDeploy` call,
the returned ResourceInfo map contains an entry for every cumulative path
prefix of every route of the call (the root resource id is resolved once
per call but never stored in the map), and the returned RouteState list
has, in order, one entry per input route carrying that route's declared
fields together with its resolved path-resource id: starting from the
world the root resolution left, each route's recorded `ResourceID` is
exactly the id `EnsurePath` resolved for that route's path, and the
route's method/integration puts were issued against exactly that id and
the route's HTTP method (`RoutesResolved`). -/
theorem EnsureRoutesAndDeploy_route_paths_covered
    (apiID stage functionArn functionName region : String)
    (routes : List RouteConfig) (w : World)
    (h : (EnsureRoutesAndDeploy apiID stage functionArn functionName region
      routes w).1.2 = none) :
    (∀ r ∈ routes, ∀ p ∈ cumulativePaths r.Path,
      mapGet (apigwStateOf apiID stage functionArn functionName region
        routes w).Resources p ≠ none) ∧
    List.Forall₂ (fun (rs : RouteState) (r : RouteConfig) =>
      rs.Path = r.Path ∧ rs.Method = r.Method ∧
      rs.Authorization = r.Authorization ∧ rs.AuthorizerID = r.AuthorizerID)
      (apigwStateOf apiID stage functionArn functionName region
        routes w).Routes routes ∧
    (∃ rootID w1 t1 w2 t2,
      GetRootResourceID apiID w = ((rootID, none), w1, t1) ∧
      RoutesResolved apiID functionArn region rootID routes
        (apigwStateOf apiID stage functionArn functionName region
          routes w).Routes w1 w2 t2) := by
  unfold EnsureRoutesAndDeploy at h
  rcases hroot : GetRootResourceID apiID w with ⟨⟨rootID, rerr⟩, w1, t1⟩
  simp only [hroot] at h
  rcases rerr with _ | e
  · rcases hloop : ensureRoutesLoop apiID functionArn region rootID routes
      [] [] w1 with ⟨⟨⟨resources, routesState⟩, lerr⟩, w2, t2⟩
    simp only [hloop] at h
    rcases lerr with _ | e
    · rcases hdep : DeployAPI apiID stage w2 with ⟨derr, w3, t3⟩
      simp only [hdep] at h
      rcases derr with _ | e
      · have hstate : apigwStateOf apiID stage functionArn functionName
            region routes w = ⟨apiID, stage, routesState, resources⟩ := by
          unfold apigwStateOf EnsureRoutesAndDeploy
          simp only [hroot, hloop, hdep, Option.getD_some]
        have hspec := ensureRoutesLoop_spec apiID functionArn region rootID
          routes [] [] w1 resources routesState w2 t2 hloop
        obtain ⟨news, hnews, hfa, hrr⟩ := hspec.2.2
        have hrseq : routesState = news := by simpa using hnews
        simp only [hstate]
        refine ⟨fun r hr p hp => hspec.2.1 r hr p hp,
          by simpa [hnews] using hfa,
          rootID, w1, t1, w2, t2, rfl, ?_⟩
        rw [hrseq]
        exact hrr
      · simp at h
    · simp at h
  · simp at h

/-- Witness for `EnsureRoutesAndDeploy_route_paths_covered` at the
concrete two-route call. -/
theorem EnsureRoutesAndDeploy_route_paths_covered_witness :
    ((EnsureRoutesAndDeploy "api1" "dev" (mkFunctionArn "fn") "fn"
        modelRegion routesC4 w0).1.2 = none) ∧
    (∀ p ∈ cumulativePaths "/a/b",
      mapGet (apigwStateOf "api1" "dev" (mkFunctionArn "fn") "fn"
        modelRegion routesC4 w0).Resources p ≠ none) := by
  have h := EnsureRoutesAndDeploy_route_paths_covered "api1" "dev"
    (mkFunctionArn "fn") "fn" modelRegion routesC4 w0 (by decide)
  exact ⟨by decide, h.1 ⟨"/a/b", "GET", "NONE", ""⟩ (by decide)⟩

/-! ## Stage classification of the creation orchestration (C3) -/

theorem TraceOk_nil (k : Nat) : TraceOk k [] := by
  intro op h
  simp at h

theorem TraceOk_append {k : Nat} {a b : List Op} (ha : TraceOk k a)
    (hb : TraceOk k b) : TraceOk k (a ++ b) := by
  intro op hop
  rcases List.mem_append.mp hop with h | h
  · exact ha op h
  · exact hb op h

theorem traceOk_single {k : Nat} {op : Op}
    (h1 : opTag op = some k ∨ opTag op = none)
    (h2 : isUndoOp op = false) : TraceOk k [op] := by
  intro o ho
  simp only [List.mem_singleton] at ho
  subst ho
  exact ⟨h1, h2⟩

theorem GetRole_trace (rn : String) (w : World) :
    (GetRole rn w).2.2 = [Op.opGetRole rn] := by
  unfold GetRole awsIamGetRole
  by_cases h : rn ∈ w.roles <;> simp [h] <;> split <;> rfl

theorem CreateRole_traceOk (rn : String) (w : World) :
    TraceOk 1 (CreateRole rn w).2.2 := by
  have hG : ∀ (w' : World), TraceOk 1 (GetRole rn w').2.2 := by
    intro w'
    rw [GetRole_trace]
    exact traceOk_single (Or.inl rfl) rfl
  unfold CreateRole awsIamCreateRole
  by_cases h : rn ∈ w.roles <;>
    simp only [h, if_true, if_false, ite_true, ite_false]
  · split
    · split <;>
        exact TraceOk_append (traceOk_single (Or.inl rfl) rfl) (hG _)
    · exact traceOk_single (Or.inl rfl) rfl
  · exact traceOk_single (Or.inl rfl) rfl

theorem AttachPolicy_trace (rn arn : String) (w : World) :
    (AttachPolicy rn arn w).2.2 = [Op.opAttachRolePolicy rn arn] := by
  unfold AttachPolicy awsIamAttachRolePolicy
  by_cases h : (rn, arn) ∈ w.rolePolicies <;> simp [h] <;> split <;> rfl

theorem attachPoliciesLoop_traceOk (rn : String) :
    ∀ (arns : List String) (w : World),
      TraceOk 1 (attachPoliciesLoop rn arns w).2.2
  | [], _ => TraceOk_nil 1
  | arn :: rest, w => by
      simp only [attachPoliciesLoop]
      rcases ha : AttachPolicy rn arn w with ⟨aerr, w1, t1⟩
      have ht1 : t1 = [Op.opAttachRolePolicy rn arn] := by
        have h0 := AttachPolicy_trace rn arn w
        rw [ha] at h0
        exact h0
      have ht1ok : TraceOk 1 t1 := by
        rw [ht1]
        exact traceOk_single (Or.inl rfl) rfl
      rcases aerr with _ | e
      · rcases hl : attachPoliciesLoop rn rest w1 with ⟨perr, w2, t2⟩
        have ht2 : TraceOk 1 t2 := by
          have h0 := attachPoliciesLoop_traceOk rn rest w1
          rw [hl] at h0
          exact h0
        exact TraceOk_append ht1ok ht2
      · exact ht1ok

theorem attachPhase_traceOk (rn : String) (arns : List String)
    (roleArn : Option String) (w : World) (acc : List Op)
    (hacc : TraceOk 1 acc) :
    TraceOk 1 (EnsureRole.attachPhase rn arns roleArn w acc).2.2 := by
  unfold EnsureRole.attachPhase
  rcases ha : AttachPolicy rn
    "arn:aws:iam::aws:policy/service-role/AWSLambdaBasicExecutionRole" w with
    ⟨aerr, w3, t3⟩
  have ht3 : TraceOk 1 t3 := by
    have h0 := AttachPolicy_trace rn
      "arn:aws:iam::aws:policy/service-role/AWSLambdaBasicExecutionRole" w
    rw [ha] at h0
    rw [show t3 = [Op.opAttachRolePolicy rn
      "arn:aws:iam::aws:policy/service-role/AWSLambdaBasicExecutionRole"]
      from h0]
    exact traceOk_single (Or.inl rfl) rfl
  simp only [ha]
  rcases aerr with _ | e
  · rcases hl : attachPoliciesLoop rn arns w3 with ⟨perr, w4, t4⟩
    have ht4 : TraceOk 1 t4 := by
      have h0 := attachPoliciesLoop_traceOk rn arns w3
      rw [hl] at h0
      exact h0
    simp only [hl]
    rcases perr with _ | e
    · exact TraceOk_append (TraceOk_append (TraceOk_append hacc ht3) ht4)
        (traceOk_single (Or.inr rfl) rfl)
    · exact TraceOk_append (TraceOk_append hacc ht3) ht4
  · exact TraceOk_append hacc ht3

theorem EnsureRole_traceOk (fn : String) (arns : List String) (w : World) :
    TraceOk 1 (EnsureRole fn arns w).2.2 ∧
    Op.opGetRole (fn ++ "-execution-role") ∈ (EnsureRole fn arns w).2.2 := by
  unfold EnsureRole
  rcases hg : GetRole (fn ++ "-execution-role") w with ⟨⟨role, err⟩, w1, t1⟩
  have ht1 : t1 = [Op.opGetRole (fn ++ "-execution-role")] := by
    have h0 := GetRole_trace (fn ++ "-execution-role") w
    rw [hg] at h0
    exact h0
  have ht1ok : TraceOk 1 t1 := by
    rw [ht1]
    exact traceOk_single (Or.inl rfl) rfl
  have hmem1 : ∀ (rest : List Op),
      Op.opGetRole (fn ++ "-execution-role") ∈ t1 ++ rest := by
    intro rest
    rw [ht1]
    simp
  simp only [hg]
  rcases err with _ | e
  · rcases role with _ | r
    · rcases hc : CreateRole (fn ++ "-execution-role") w1 with
        ⟨⟨roleArn, cerr⟩, w2, t2⟩
      have ht2 : TraceOk 1 t2 := by
        have h0 := CreateRole_traceOk (fn ++ "-execution-role") w1
        rw [hc] at h0
        exact h0
      simp only [hc]
      rcases cerr with _ | e
      · refine ⟨attachPhase_traceOk _ _ _ _ _ (TraceOk_append ht1ok ht2), ?_⟩
        -- the phase trace extends acc = t1 ++ t2 on the right
        have : ∀ (racc : List Op), TraceOk 1 racc →
            ∃ rest, (EnsureRole.attachPhase (fn ++ "-execution-role") arns
              roleArn w2 racc).2.2 = racc ++ rest := by
          intro racc _
          unfold EnsureRole.attachPhase
          rcases ha : AttachPolicy (fn ++ "-execution-role")
            "arn:aws:iam::aws:policy/service-role/AWSLambdaBasicExecutionRole"
            w2 with ⟨aerr, w3, t3⟩
          simp only [ha]
          rcases aerr with _ | e
          · rcases hl : attachPoliciesLoop (fn ++ "-execution-role") arns
              w3 with ⟨perr, w4, t4⟩
            simp only [hl]
            rcases perr with _ | e
            · exact ⟨t3 ++ t4 ++ [Op.opSleep 10000], by simp⟩
            · exact ⟨t3 ++ t4, by simp⟩
          · exact ⟨t3, by simp⟩
        obtain ⟨rest, hrest⟩ := this (t1 ++ t2) (TraceOk_append ht1ok ht2)
        rw [hrest, List.append_assoc]
        exact hmem1 _
      · exact ⟨TraceOk_append ht1ok ht2, hmem1 _⟩
    · refine ⟨attachPhase_traceOk _ _ _ _ _ ht1ok, ?_⟩
      have : ∀ (racc : List Op), TraceOk 1 racc →
          ∃ rest, (EnsureRole.attachPhase (fn ++ "-execution-role") arns
            (some r.Arn) w1 racc).2.2 = racc ++ rest := by
        intro racc _
        unfold EnsureRole.attachPhase
        rcases ha : AttachPolicy (fn ++ "-execution-role")
          "arn:aws:iam::aws:policy/service-role/AWSLambdaBasicExecutionRole"
          w1 with ⟨aerr, w3, t3⟩
        simp only [ha]
        rcases aerr with _ | e
        · rcases hl : attachPoliciesLoop (fn ++ "-execution-role") arns
            w3 with ⟨perr, w4, t4⟩
          simp only [hl]
          rcases perr with _ | e
          · exact ⟨t3 ++ t4 ++ [Op.opSleep 10000], by simp⟩
          · exact ⟨t3 ++ t4, by simp⟩
        · exact ⟨t3, by simp⟩
      obtain ⟨rest, hrest⟩ := this t1 ht1ok
      rw [hrest]
      exact hmem1 _
  · exact ⟨ht1ok, by rw [ht1]; simp⟩

theorem GetFunction_trace (fn : String) (w : World) :
    (GetFunction fn w).2.2 = [Op.opGetFunction fn] := by
  unfold GetFunction awsLambdaGetFunction
  by_cases h : fn ∈ w.getFunctionFails
  · simp [h] <;> split <;> rfl
  · simp only [h, if_false, ite_false]
    cases hm : mapGet w.functions fn <;> simp [hm] <;> split <;> rfl

theorem updateFunctionConfiguration_trace (lc : LambdaConfig) (w : World) :
    (updateFunctionConfiguration lc w).2.2 =
      [Op.opUpdateFunctionConfiguration lc.FunctionName] := by
  unfold updateFunctionConfiguration awsLambdaUpdateFunctionConfiguration
  cases hm : mapGet w.functions lc.FunctionName <;> simp [hm]

theorem updateFunctionCode_trace (fn : String) (w : World) :
    (updateFunctionCode fn w).2.2 = [Op.opUpdateFunctionCode fn] := by
  unfold updateFunctionCode awsLambdaUpdateFunctionCode
  cases hm : mapGet w.functions fn <;> simp [hm]

theorem waitForActive_traceOk (fn : String) (w : World) :
    TraceOk 2 (waitForActive fn w).2.2 := by
  unfold waitForActive awsLambdaWaiterWait
  by_cases hf : fn ∈ w.waiterFails <;>
    simp only [hf, if_true, if_false, ite_true, ite_false]
  · rcases hg : GetFunction fn (if fn ∈ w.vanishDuringWait then
      { w with functions := w.functions.filter (·.1 ≠ fn) } else w) with
      ⟨⟨out, checkErr⟩, w2, t2⟩
    have ht2 : TraceOk 2 t2 := by
      have h0 := GetFunction_trace fn (if fn ∈ w.vanishDuringWait then
        { w with functions := w.functions.filter (·.1 ≠ fn) } else w)
      rw [hg] at h0
      rw [show t2 = [Op.opGetFunction fn] from h0]
      exact traceOk_single (Or.inl rfl) rfl
    simp only [hg]
    rcases checkErr with _ | e <;>
      exact TraceOk_append (traceOk_single (Or.inl rfl) rfl) ht2
  · exact traceOk_single (Or.inl rfl) rfl

theorem EnsureFunction_traceOk (lc : LambdaConfig) (roleArn : String)
    (w : World) :
    TraceOk 2 (EnsureFunction lc roleArn w).2.2 ∧
    Op.opReadFile lc.ZipPath ∈ (EnsureFunction lc roleArn w).2.2 := by
  unfold EnsureFunction osReadFile
  by_cases hf : lc.ZipPath ∈ w.files <;>
    simp only [hf, if_true, if_false, ite_true, ite_false]
  case neg => exact ⟨traceOk_single (Or.inl rfl) rfl, by simp⟩
  case pos =>
  rcases hg : GetFunction lc.FunctionName w with ⟨⟨got, err⟩, w2, t2⟩
  have ht2 : TraceOk 2 t2 := by
    have h0 := GetFunction_trace lc.FunctionName w
    rw [hg] at h0
    rw [show t2 = [Op.opGetFunction lc.FunctionName] from h0]
    exact traceOk_single (Or.inl rfl) rfl
  have hread : TraceOk 2 [Op.opReadFile lc.ZipPath] :=
    traceOk_single (Or.inl rfl) rfl
  simp only [hg]
  rcases got with _ | gotCfg <;> rcases err with _ | e
  · -- absent, no error: create path
    rcases hc : awsLambdaCreateFunction lc.FunctionName w2 with
      ⟨⟨result, cerr⟩, w3, t3⟩
    have ht3 : TraceOk 2 t3 := by
      unfold awsLambdaCreateFunction at hc
      cases hm : mapGet w2.functions lc.FunctionName <;> rw [hm] at hc <;>
        simp only [Prod.mk.injEq] at hc <;>
        rw [show t3 = [Op.opCreateFunction lc.FunctionName] from hc.2.2.symm] <;>
        exact traceOk_single (Or.inl rfl) rfl
    simp only [hc]
    rcases cerr with _ | e
    · rcases result with _ | cfg <;>
        exact ⟨TraceOk_append (TraceOk_append hread ht2) ht3, by simp⟩
    · by_cases hcf : goContains e.msg "ResourceConflictException" = true
      · simp only [hcf, if_true, ite_true]
        rcases hg2 : GetFunction lc.FunctionName w3 with ⟨⟨g2, _⟩, w4, t4⟩
        have ht4 : TraceOk 2 t4 := by
          have h0 := GetFunction_trace lc.FunctionName w3
          rw [hg2] at h0
          rw [show t4 = [Op.opGetFunction lc.FunctionName] from h0]
          exact traceOk_single (Or.inl rfl) rfl
        simp only [hg2]
        rcases g2 with _ | g2Cfg <;>
          exact ⟨TraceOk_append (TraceOk_append (TraceOk_append hread ht2)
            ht3) ht4, by simp⟩
      · simp only [hcf, if_false, ite_false]
        exact ⟨TraceOk_append (TraceOk_append hread ht2) ht3, by simp⟩
  · -- absent with error: create path as well
    rcases hc : awsLambdaCreateFunction lc.FunctionName w2 with
      ⟨⟨result, cerr⟩, w3, t3⟩
    have ht3 : TraceOk 2 t3 := by
      unfold awsLambdaCreateFunction at hc
      cases hm : mapGet w2.functions lc.FunctionName <;> rw [hm] at hc <;>
        simp only [Prod.mk.injEq] at hc <;>
        rw [show t3 = [Op.opCreateFunction lc.FunctionName] from hc.2.2.symm] <;>
        exact traceOk_single (Or.inl rfl) rfl
    simp only [hc]
    rcases cerr with _ | e2
    · rcases result with _ | cfg <;>
        exact ⟨TraceOk_append (TraceOk_append hread ht2) ht3, by simp⟩
    · by_cases hcf : goContains e2.msg "ResourceConflictException" = true
      · simp only [hcf, if_true, ite_true]
        rcases hg2 : GetFunction lc.FunctionName w3 with ⟨⟨g2, _⟩, w4, t4⟩
        have ht4 : TraceOk 2 t4 := by
          have h0 := GetFunction_trace lc.FunctionName w3
          rw [hg2] at h0
          rw [show t4 = [Op.opGetFunction lc.FunctionName] from h0]
          exact traceOk_single (Or.inl rfl) rfl
        simp only [hg2]
        rcases g2 with _ | g2Cfg <;>
          exact ⟨TraceOk_append (TraceOk_append (TraceOk_append hread ht2)
            ht3) ht4, by simp⟩
      · simp only [hcf, if_false, ite_false]
        exact ⟨TraceOk_append (TraceOk_append hread ht2) ht3, by simp⟩
  · -- present, no error: update path
    rcases hu : updateFunctionConfiguration lc w2 with ⟨uerr, w3, t3⟩
    have ht3 : TraceOk 2 t3 := by
      have h0 := updateFunctionConfiguration_trace lc w2
      rw [hu] at h0
      rw [show t3 = [Op.opUpdateFunctionConfiguration lc.FunctionName] from h0]
      exact traceOk_single (Or.inl rfl) rfl
    simp only [hu]
    rcases uerr with _ | e
    · rcases hcc : updateFunctionCode lc.FunctionName w3 with ⟨cerr, w4, t4⟩
      have ht4 : TraceOk 2 t4 := by
        have h0 := updateFunctionCode_trace lc.FunctionName w3
        rw [hcc] at h0
        rw [show t4 = [Op.opUpdateFunctionCode lc.FunctionName] from h0]
        exact traceOk_single (Or.inl rfl) rfl
      simp only [hcc]
      rcases cerr with _ | e
      · rcases hw : waitForActive lc.FunctionName w4 with ⟨werr, w5, t5⟩
        have ht5 : TraceOk 2 t5 := by
          have h0 := waitForActive_traceOk lc.FunctionName w4
          rw [hw] at h0
          exact h0
        simp only [hw]
        rcases werr with _ | e <;>
          exact ⟨TraceOk_append (TraceOk_append (TraceOk_append
            (TraceOk_append hread ht2) ht3) ht4) ht5, by simp⟩
      · exact ⟨TraceOk_append (TraceOk_append (TraceOk_append hread ht2)
          ht3) ht4, by simp⟩
    · exact ⟨TraceOk_append (TraceOk_append hread ht2) ht3, by simp⟩
  · -- present with error: create path
    rcases hc : awsLambdaCreateFunction lc.FunctionName w2 with
      ⟨⟨result, cerr⟩, w3, t3⟩
    have ht3 : TraceOk 2 t3 := by
      unfold awsLambdaCreateFunction at hc
      cases hm : mapGet w2.functions lc.FunctionName <;> rw [hm] at hc <;>
        simp only [Prod.mk.injEq] at hc <;>
        rw [show t3 = [Op.opCreateFunction lc.FunctionName] from hc.2.2.symm] <;>
        exact traceOk_single (Or.inl rfl) rfl
    simp only [hc]
    rcases cerr with _ | e2
    · rcases result with _ | cfg <;>
        exact ⟨TraceOk_append (TraceOk_append hread ht2) ht3, by simp⟩
    · by_cases hcf : goContains e2.msg "ResourceConflictException" = true
      · simp only [hcf, if_true, ite_true]
        rcases hg2 : GetFunction lc.FunctionName w3 with ⟨⟨g2, _⟩, w4, t4⟩
        have ht4 : TraceOk 2 t4 := by
          have h0 := GetFunction_trace lc.FunctionName w3
          rw [hg2] at h0
          rw [show t4 = [Op.opGetFunction lc.FunctionName] from h0]
          exact traceOk_single (Or.inl rfl) rfl
        simp only [hg2]
        rcases g2 with _ | g2Cfg <;>
          exact ⟨TraceOk_append (TraceOk_append (TraceOk_append hread ht2)
            ht3) ht4, by simp⟩
      · simp only [hcf, if_false, ite_false]
        exact ⟨TraceOk_append (TraceOk_append hread ht2) ht3, by simp⟩

theorem putRetentionAttempt_some_trace (name : String) (days : Int)
    (w : World) (r : Option GoErr) (w' : World) (t : List Op)
    (h : putRetentionAttempt name days w = some (r, w', t)) :
    t = [Op.opPutRetentionPolicy name days] := by
  unfold putRetentionAttempt awsCwPutRetentionPolicy at h
  by_cases hm : name ∈ w.logGroups <;>
    simp [hm, isAPIErrorCode, errorCodeOf, nilAPIError] at h <;>
    tauto

theorem retryGo_traceOk :
    ∀ (n sleepMs : Nat) (le : Option GoErr)
      (fn : World → Option (Option GoErr × World × List Op)) (w : World)
      (r : Option GoErr) (w' : World) (t : List Op),
      retryGo n sleepMs le fn w = some (r, w', t) →
      (∀ w1 r1 w2 t1, fn w1 = some (r1, w2, t1) → TraceOk 3 t1) →
      TraceOk 3 t := by
  intro n
  induction n with
  | zero =>
      intro sleepMs le fn w r w' t h hfn
      simp only [retryGo, Option.some.injEq, Prod.mk.injEq] at h
      rw [← h.2.2]
      exact TraceOk_nil 3
  | succ m ih =>
      intro sleepMs le fn w r w' t h hfn
      simp only [retryGo] at h
      rcases hf : fn w with _ | ⟨err, w1, t1⟩
      · simp only [hf] at h
        exact Option.noConfusion h
      · simp only [hf] at h
        have ht1 : TraceOk 3 t1 := hfn w err w1 t1 hf
        rcases err with _ | e
        · simp only [Option.some.injEq, Prod.mk.injEq] at h
          rw [← h.2.2]
          exact ht1
        · rcases hr : retryGo m (sleepMs * 2) (some e) fn w1 with
            _ | ⟨r2, w2, t2⟩
          · simp only [hr] at h
            exact Option.noConfusion h
          · simp only [hr] at h
            have ht2 : TraceOk 3 t2 := ih (sleepMs * 2) (some e) fn w1 r2
              w2 t2 hr hfn
            simp only [Option.some.injEq, Prod.mk.injEq] at h
            rw [← h.2.2]
            exact TraceOk_append (TraceOk_append ht1
              (traceOk_single (Or.inr rfl) rfl)) ht2

theorem CreateLogGroupIfNotExists_some_trace (name : String) (days : Int)
    (w : World) (r : Option GoErr) (w' : World) (t : List Op)
    (h : CreateLogGroupIfNotExists name days w = some (r, w', t)) :
    TraceOk 3 t ∧ Op.opCreateLogGroup name ∈ t := by
  unfold CreateLogGroupIfNotExists awsCwCreateLogGroup at h
  by_cases hm : name ∈ w.logGroups <;>
    simp only [hm, if_true, if_false, ite_true, ite_false] at h
  · simp [isAPIErrorCode, errorCodeOf, nilAPIError, optBAnd, optBNot] at h
  · rcases hr : retryGo 6 300 none (putRetentionAttempt name days)
      { w with logGroups := w.logGroups ++ [name] } with _ | ⟨rerr, w2, t2⟩
    · simp only [hr] at h
      exact Option.noConfusion h
    · simp only [hr] at h
      have ht2 : TraceOk 3 t2 := retryGo_traceOk 6 300 none
        (putRetentionAttempt name days)
        { w with logGroups := w.logGroups ++ [name] } rerr w2 t2 hr
        (by
          intro w1 r1 w2' t1 hatt
          rw [putRetentionAttempt_some_trace name days w1 r1 w2' t1 hatt]
          exact traceOk_single (Or.inl rfl) rfl)
      rcases rerr with _ | e <;>
        simp only [Option.some.injEq, Prod.mk.injEq] at h <;>
        rw [← h.2.2] <;>
        exact ⟨TraceOk_append (traceOk_single (Or.inl rfl) rfl) ht2, by simp⟩

theorem EnsureLogGroup_some_trace (fn : String) (days : Int) (w : World)
    (r : String × Option GoErr) (w' : World) (t : List Op)
    (h : EnsureLogGroup fn days w = some (r, w', t)) :
    TraceOk 3 t ∧ Op.opCreateLogGroup ("/aws/lambda/" ++ fn) ∈ t := by
  unfold EnsureLogGroup at h
  rcases hc : CreateLogGroupIfNotExists ("/aws/lambda/" ++ fn) days w with
    _ | ⟨err, w1, t1⟩
  · simp only [hc] at h
    exact Option.noConfusion h
  · simp only [hc] at h
    have := CreateLogGroupIfNotExists_some_trace ("/aws/lambda/" ++ fn) days
      w err w1 t1 hc
    rcases err with _ | e <;>
      simp only [Option.some.injEq, Prod.mk.injEq] at h <;>
      rw [← h.2.2] <;>
      exact this

theorem AddPermission_trace (fn apiID : String) (w : World) :
    (AddPermission fn apiID w).2.2 =
      [Op.opAddPermission fn ("apigateway-" ++ apiID)] := by
  unfold AddPermission awsLambdaAddPermission
  by_cases h : (fn, "apigateway-" ++ apiID) ∈ w.permissions <;>
    simp [h] <;> split <;> rfl

theorem GetRootResourceID_trace (apiID : String) (w : World) :
    (GetRootResourceID apiID w).2.2 = [Op.opGetResources apiID] := by
  unfold GetRootResourceID awsApigwGetResources
  cases hh : (w.gwResources.filter (·.path = "/")).head? <;> simp [hh]

theorem findResourceByPath_trace (apiID p : String) (w : World) :
    (findResourceByPath apiID p w).2.2 = [Op.opGetResources apiID] := by
  unfold findResourceByPath awsApigwGetResources
  cases hh : (w.gwResources.filter (·.path = p)).head? <;> simp [hh]

theorem awsApigwCreateResource_trace (apiID pid part : String) (w : World) :
    (awsApigwCreateResource apiID pid part w).2.2 =
      [Op.opCreateResource apiID pid part] := by
  unfold awsApigwCreateResource
  cases hp : (w.gwResources.filter (·.id = pid)).head? with
  | none => simp [hp]
  | some parent =>
      simp only [hp]
      split <;> split <;> rfl

theorem putIntegrationResponse_traceOk (apiID rid m : String) (w : World)
    (acc : List Op) (hacc : TraceOk 5 acc) :
    TraceOk 5
      (PutMethodAndIntegration.putIntegrationResponse apiID rid m w acc).2.2 := by
  unfold PutMethodAndIntegration.putIntegrationResponse
    awsApigwPutIntegrationResponse
  exact TraceOk_append hacc (traceOk_single (Or.inl rfl) rfl)

theorem putResponses_traceOk (apiID rid m : String) (w : World)
    (acc : List Op) (hacc : TraceOk 5 acc) :
    TraceOk 5 (PutMethodAndIntegration.putResponses apiID rid m w acc).2.2 := by
  unfold PutMethodAndIntegration.putResponses awsApigwPutMethodResponse
  exact putIntegrationResponse_traceOk apiID rid m _ _
    (TraceOk_append hacc (traceOk_single (Or.inl rfl) rfl))

theorem putIntegrationChain_traceOk (apiID rid m : String) (w : World)
    (acc : List Op) (hacc : TraceOk 5 acc) :
    TraceOk 5
      (PutMethodAndIntegration.putIntegrationChain apiID rid m w acc).2.2 := by
  unfold PutMethodAndIntegration.putIntegrationChain awsApigwPutIntegration
  exact putResponses_traceOk apiID rid m _ _
    (TraceOk_append hacc (traceOk_single (Or.inl rfl) rfl))

theorem PutMethodAndIntegration_traceOk (apiID rid m fa rg auth aid : String)
    (w : World) :
    TraceOk 5 (PutMethodAndIntegration apiID rid m fa rg auth aid w).2.2 := by
  unfold PutMethodAndIntegration awsApigwPutMethod
  exact putIntegrationChain_traceOk apiID rid m _ _
    (traceOk_single (Or.inl rfl) rfl)

theorem ensurePathLoop_traceOk (apiID : String) :
    ∀ (parts : List String) (pid cp : String)
      (res : List (String × ResourceInfo)) (w : World),
      TraceOk 5 (ensurePathLoop apiID parts pid cp res w).2.2 := by
  intro parts
  induction parts with
  | nil =>
      intro pid cp res w
      exact TraceOk_nil 5
  | cons part rest ih =>
      intro pid cp res w
      rcases he : ensurePathLoop apiID (part :: rest) pid cp res w with
        ⟨r, w', t⟩
      simp only [ensurePathLoop] at he
      rcases hf : findResourceByPath apiID (cp ++ "/" ++ part) w with
        ⟨⟨existing, ferr⟩, w1, t1⟩
      have ht1 : TraceOk 5 t1 := by
        have h0 := findResourceByPath_trace apiID (cp ++ "/" ++ part) w
        rw [hf] at h0
        rw [show t1 = [Op.opGetResources apiID] from h0]
        exact traceOk_single (Or.inl rfl) rfl
      rw [hf] at he
      split at he
      · rcases hrec : ensurePathLoop apiID rest existing (cp ++ "/" ++ part)
          (mapSet res (cp ++ "/" ++ part) ⟨existing, part⟩) w1 with
          ⟨r2, w2, t2⟩
        rw [hrec] at he
        have ht2 : TraceOk 5 t2 := by
          have h0 := ih existing (cp ++ "/" ++ part)
            (mapSet res (cp ++ "/" ++ part) ⟨existing, part⟩) w1
          rw [hrec] at h0
          exact h0
        simp only [Prod.mk.injEq] at he
        rw [← he.2.2]
        exact TraceOk_append ht1 ht2
      · rcases hc : awsApigwCreateResource apiID pid part w1 with
          ⟨⟨created, cerr⟩, w2, t2⟩
        have ht2 : TraceOk 5 t2 := by
          have h0 := awsApigwCreateResource_trace apiID pid part w1
          rw [hc] at h0
          rw [show t2 = [Op.opCreateResource apiID pid part] from h0]
          exact traceOk_single (Or.inl rfl) rfl
        rw [hc] at he
        split at he
        · split at he
          · rcases hf2 : findResourceByPath apiID (cp ++ "/" ++ part) w2 with
              ⟨⟨existing2, ferr2⟩, w3, t3⟩
            have ht3 : TraceOk 5 t3 := by
              have h0 := findResourceByPath_trace apiID (cp ++ "/" ++ part) w2
              rw [hf2] at h0
              rw [show t3 = [Op.opGetResources apiID] from h0]
              exact traceOk_single (Or.inl rfl) rfl
            rw [hf2] at he
            split at he
            · rcases hrec : ensurePathLoop apiID rest existing2
                (cp ++ "/" ++ part)
                (mapSet res (cp ++ "/" ++ part) ⟨existing2, part⟩) w3 with
                ⟨r4, w4, t4⟩
              rw [hrec] at he
              have ht4 : TraceOk 5 t4 := by
                have h0 := ih existing2 (cp ++ "/" ++ part)
                  (mapSet res (cp ++ "/" ++ part) ⟨existing2, part⟩) w3
                rw [hrec] at h0
                exact h0
              simp only [Prod.mk.injEq] at he
              rw [← he.2.2]
              exact TraceOk_append (TraceOk_append (TraceOk_append ht1 ht2)
                ht3) ht4
            · simp only [Prod.mk.injEq] at he
              rw [← he.2.2]
              exact TraceOk_append (TraceOk_append ht1 ht2) ht3
          · simp only [Prod.mk.injEq] at he
            rw [← he.2.2]
            exact TraceOk_append ht1 ht2
        · split at he
          · rename_i entry heq
            rcases hrec : ensurePathLoop apiID rest entry.id
              (cp ++ "/" ++ part)
              (mapSet res (cp ++ "/" ++ part) ⟨entry.id, part⟩) w2 with
              ⟨r3, w3, t3⟩
            rw [hrec] at he
            have ht3 : TraceOk 5 t3 := by
              have h0 := ih entry.id (cp ++ "/" ++ part)
                (mapSet res (cp ++ "/" ++ part) ⟨entry.id, part⟩) w2
              rw [hrec] at h0
              exact h0
            simp only [Prod.mk.injEq] at he
            rw [← he.2.2]
            exact TraceOk_append (TraceOk_append ht1 ht2) ht3
          · simp only [Prod.mk.injEq] at he
            rw [← he.2.2]
            exact TraceOk_append ht1 ht2

theorem EnsurePath_traceOk (apiID rootID path : String) (w : World) :
    TraceOk 5 (EnsurePath apiID rootID path w).2.2 := by
  unfold EnsurePath
  by_cases ht : goTrimSlashes path = ""
  · rw [if_pos ht]
    exact TraceOk_nil 5
  · rw [if_neg ht]
    exact ensurePathLoop_traceOk apiID (goSplitSlash (goTrimSlashes path))
      rootID "" [] w

theorem ensureRoutesLoop_traceOk (apiID fa rg rootID : String) :
    ∀ (routes : List RouteConfig) (resAcc : List (String × ResourceInfo))
      (rsAcc : List RouteState) (w : World),
      TraceOk 5
        (ensureRoutesLoop apiID fa rg rootID routes resAcc rsAcc w).2.2 := by
  intro routes
  induction routes with
  | nil =>
      intro resAcc rsAcc w
      exact TraceOk_nil 5
  | cons r rest ih =>
      intro resAcc rsAcc w
      rcases he : ensureRoutesLoop apiID fa rg rootID (r :: rest) resAcc
        rsAcc w with ⟨res, w', t⟩
      simp only [ensureRoutesLoop] at he
      rcases hp : EnsurePath apiID rootID r.Path w with
        ⟨⟨⟨resourceID, pathResources⟩, perr⟩, w1, t1⟩
      have ht1 : TraceOk 5 t1 := by
        have h0 := EnsurePath_traceOk apiID rootID r.Path w
        rw [hp] at h0
        exact h0
      rw [hp] at he
      split at he
      · simp only [Prod.mk.injEq] at he
        rw [← he.2.2]
        exact ht1
      · rcases hm : PutMethodAndIntegration apiID resourceID r.Method fa rg
          r.Authorization r.AuthorizerID w1 with ⟨merr, w2, t2⟩
        have ht2 : TraceOk 5 t2 := by
          have h0 := PutMethodAndIntegration_traceOk apiID resourceID
            r.Method fa rg r.Authorization r.AuthorizerID w1
          rw [hm] at h0
          exact h0
        rw [hm] at he
        split at he
        · simp only [Prod.mk.injEq] at he
          rw [← he.2.2]
          exact TraceOk_append ht1 ht2
        · rcases hrec : ensureRoutesLoop apiID fa rg rootID rest
            (ensureRoutesLoop.mergeResources resAcc pathResources)
            (rsAcc ++ [⟨r.Path, r.Method, r.Authorization, r.AuthorizerID,
              resourceID⟩]) w2 with ⟨res3, w3, t3⟩
          rw [hrec] at he
          have ht3 : TraceOk 5 t3 := by
            have h0 := ih (ensureRoutesLoop.mergeResources resAcc
              pathResources) (rsAcc ++ [⟨r.Path, r.Method, r.Authorization,
              r.AuthorizerID, resourceID⟩]) w2
            rw [hrec] at h0
            exact h0
          simp only [Prod.mk.injEq] at he
          rw [← he.2.2]
          exact TraceOk_append (TraceOk_append ht1 ht2) ht3

theorem DeployAPI_trace (apiID stageName : String) (w : World) :
    (DeployAPI apiID stageName w).2.2 =
      [Op.opCreateDeployment apiID stageName] := rfl

theorem EnsureRoutesAndDeploy_traceOk (apiID stage fa fn rg : String)
    (routes : List RouteConfig) (w : World) :
    TraceOk 5 (EnsureRoutesAndDeploy apiID stage fa fn rg routes w).2.2 ∧
    Op.opGetResources apiID ∈
      (EnsureRoutesAndDeploy apiID stage fa fn rg routes w).2.2 := by
  rcases he : EnsureRoutesAndDeploy apiID stage fa fn rg routes w with
    ⟨res, w', t⟩
  simp only [EnsureRoutesAndDeploy] at he
  rcases hg : GetRootResourceID apiID w with ⟨⟨rootID, rerr⟩, w1, t1⟩
  have ht1eq : t1 = [Op.opGetResources apiID] := by
    have h0 := GetRootResourceID_trace apiID w
    rw [hg] at h0
    exact h0
  have ht1 : TraceOk 5 t1 := by
    rw [ht1eq]
    exact traceOk_single (Or.inl rfl) rfl
  have hmem : ∀ rest : List Op, Op.opGetResources apiID ∈ t1 ++ rest := by
    intro rest
    rw [ht1eq]
    simp
  rw [hg] at he
  split at he
  · simp only [Prod.mk.injEq] at he
    rw [← he.2.2]
    refine ⟨ht1, ?_⟩
    rw [ht1eq]
    simp
  · rcases hl : ensureRoutesLoop apiID fa rg rootID routes [] [] w1 with
      ⟨⟨⟨resources, routesState⟩, lerr⟩, w2, t2⟩
    have ht2 : TraceOk 5 t2 := by
      have h0 := ensureRoutesLoop_traceOk apiID fa rg rootID routes [] [] w1
      rw [hl] at h0
      exact h0
    rw [hl] at he
    split at he
    · simp only [Prod.mk.injEq] at he
      rw [← he.2.2]
      exact ⟨TraceOk_append ht1 ht2, hmem t2⟩
    · rcases hd : DeployAPI apiID stage w2 with ⟨derr, w3, t3⟩
      have ht3 : TraceOk 5 t3 := by
        have h0 := DeployAPI_trace apiID stage w2
        rw [hd] at h0
        rw [show t3 = [Op.opCreateDeployment apiID stage] from h0]
        exact traceOk_single (Or.inl rfl) rfl
      rw [hd] at he
      split at he <;>
        simp only [Prod.mk.injEq] at he <;>
        rw [← he.2.2] <;>
        refine ⟨TraceOk_append (TraceOk_append ht1 ht2) ht3, ?_⟩ <;>
        · rw [ht1eq]
          simp

theorem tags_const {k : Nat} {tr : List Op} (h : TraceOk k tr) :
    ∀ s ∈ tr.filterMap opTag, s = k := by
  intro s hs
  obtain ⟨op, hop, htag⟩ := List.mem_filterMap.mp hs
  rcases (h op hop).1 with h1 | h1
  · rw [h1] at htag
    exact (Option.some.inj htag).symm
  · rw [h1] at htag
    exact Option.noConfusion htag

theorem pairwise_const {a : Nat} : ∀ {l : List Nat},
    (∀ s ∈ l, s = a) → l.Pairwise (· ≤ ·) := by
  intro l
  induction l with
  | nil => intro _; exact List.Pairwise.nil
  | cons x xs ih =>
      intro h
      refine List.pairwise_cons.mpr
        ⟨?_, ih fun s hs => h s (List.mem_cons_of_mem x hs)⟩
      intro y hy
      rw [h x (List.mem_cons_self x xs), h y (List.mem_cons_of_mem x hy)]

theorem catBlocks_ok : ∀ (bs : List (Nat × List Op)),
    (∀ b ∈ bs, TraceOk b.1 b.2) →
    bs.Pairwise (fun a b => a.1 ≤ b.1) →
    ((catBlocks bs).filterMap opTag).Pairwise (· ≤ ·) ∧
    (∀ op ∈ catBlocks bs, isUndoOp op = false) ∧
    (∀ s ∈ (catBlocks bs).filterMap opTag, ∃ b ∈ bs, b.1 = s) := by
  intro bs
  induction bs with
  | nil =>
      intro _ _
      refine ⟨?_, ?_, ?_⟩ <;> simp [catBlocks]
  | cons b rest ih =>
      intro h1 h2
      have hb := h1 b (List.mem_cons_self b rest)
      obtain ⟨hall, hpw⟩ := List.pairwise_cons.mp h2
      obtain ⟨ihs, ihu, ihm⟩ :=
        ih (fun x hx => h1 x (List.mem_cons_of_mem b hx)) hpw
      refine ⟨?_, ?_, ?_⟩
      · simp only [catBlocks, List.filterMap_append]
        refine List.pairwise_append.mpr
          ⟨pairwise_const (tags_const hb), ihs, ?_⟩
        intro x hx y hy
        rw [tags_const hb x hx]
        obtain ⟨c, hc, hcy⟩ := ihm y hy
        rw [← hcy]
        exact hall c hc
      · intro op hop
        simp only [catBlocks, List.mem_append] at hop
        rcases hop with hop | hop
        · exact (hb op hop).2
        · exact ihu op hop
      · intro s hs
        simp only [catBlocks, List.filterMap_append, List.mem_append] at hs
        rcases hs with hs | hs
        · exact ⟨b, List.mem_cons_self b rest, (tags_const hb s hs).symm⟩
        · obtain ⟨c, hc, hcs⟩ := ihm s hs
          exact ⟨c, List.mem_cons_of_mem b hc, hcs⟩

/-- **C3.** Every non-panicking `EnsureDeployment` run performs its
remote operations in the fixed stage order Identity (1) → Compute (2) →
LogSink (3) → permission grant (4) → Router (5): the stage tags of its
trace are sorted, every stage that appears is preceded by every earlier
stage, a run that returns no error reached all five stages, a run that
returns an error returns the failing stage's wrapper error immediately —
the failing stage `k` appears in the trace and no operation of any stage
after `k` was invoked — returns no record, and no undo/rollback operation
is ever performed. -/
theorem EnsureDeployment_stage_order (apiID stage : String)
    (lc : LambdaConfig) (routes : List RouteConfig) (w : World)
    (rcd : Option ResourceState) (err : Option GoErr) (w' : World)
    (tr : List Op)
    (h : EnsureDeployment apiID stage lc routes w =
      some ((rcd, err), w', tr)) :
    ((tr.filterMap opTag).Pairwise (· ≤ ·)) ∧
    (∀ s ∈ tr.filterMap opTag, ∀ s', 1 ≤ s' → s' < s →
      s' ∈ tr.filterMap opTag) ∧
    (err = none → ∀ s ∈ ([1, 2, 3, 4, 5] : List Nat),
      s ∈ tr.filterMap opTag) ∧
    (∀ e, err = some e → ∃ k e0, 1 ≤ k ∧ k ≤ 5 ∧
      e = wrapErr (stageWrap k) e0 ∧ k ∈ tr.filterMap opTag ∧
      ∀ s ∈ tr.filterMap opTag, s ≤ k) ∧
    (err ≠ none → rcd = none) ∧
    (∀ op ∈ tr, isUndoOp op = false) := by
  simp only [EnsureDeployment] at h
  rcases h1 : EnsureRole lc.FunctionName lc.PolicyARNs w with
    ⟨⟨roleArn, rerr⟩, w1, t1⟩
  have hr1 := EnsureRole_traceOk lc.FunctionName lc.PolicyARNs w
  rw [h1] at hr1
  have ht1 : TraceOk 1 t1 := hr1.1
  have hm1 : Op.opGetRole (lc.FunctionName ++ "-execution-role") ∈ t1 :=
    hr1.2
  simp only [h1] at h
  cases rerr with
  | some e1 =>
      simp only [Option.some.injEq, Prod.mk.injEq] at h
      obtain ⟨⟨hrec, herr⟩, hw, htr⟩ := h
      subst htr; subst hrec; subst herr
      refine ⟨pairwise_const (tags_const ht1), ?_, ?_, ?_, fun _ => rfl,
        fun op hop => (ht1 op hop).2⟩
      · intro s hs s' hs1 hs2
        have := tags_const ht1 s hs
        omega
      · intro hc
        exact Option.noConfusion hc
      · intro e he
        refine ⟨1, e1, ?_, ?_, (Option.some.inj he).symm, ?_, ?_⟩
        · omega
        · omega
        · exact List.mem_filterMap.mpr
            ⟨Op.opGetRole (lc.FunctionName ++ "-execution-role"), hm1, rfl⟩
        · intro s hs
          have := tags_const ht1 s hs
          omega
  | none =>
  rcases h2 : EnsureFunction lc roleArn w1 with ⟨⟨fnArn, ferr⟩, w2, t2⟩
  have hr2 := EnsureFunction_traceOk lc roleArn w1
  rw [h2] at hr2
  have ht2 : TraceOk 2 t2 := hr2.1
  have hm2 : Op.opReadFile lc.ZipPath ∈ t2 := hr2.2
  simp only [h2] at h
  cases ferr with
  | some e2 =>
      simp only [Option.some.injEq, Prod.mk.injEq] at h
      obtain ⟨⟨hrec, herr⟩, hw, htr⟩ := h
      subst htr; subst hrec; subst herr
      have hb1 : ∀ b ∈ [((1:Nat), t1), (2, t2)], TraceOk b.1 b.2 := by
        intro b hb
        fin_cases hb
        · exact ht1
        · exact ht2
      have hpw : List.Pairwise (fun a b => a.1 ≤ b.1)
          [((1:Nat), t1), (2, t2)] := by
        simp [List.pairwise_cons]
      obtain ⟨hsorted, hundo, hmemB⟩ := catBlocks_ok _ hb1 hpw
      have htec : t1 ++ t2 = catBlocks [((1:Nat), t1), (2, t2)] := by
        simp [catBlocks]
      have htag1 : (1:Nat) ∈ (t1 ++ t2).filterMap opTag :=
        List.mem_filterMap.mpr
          ⟨Op.opGetRole (lc.FunctionName ++ "-execution-role"),
            by simp only [List.mem_append]; tauto, rfl⟩
      have htag2 : (2:Nat) ∈ (t1 ++ t2).filterMap opTag :=
        List.mem_filterMap.mpr ⟨Op.opReadFile lc.ZipPath,
          by simp only [List.mem_append]; tauto, rfl⟩
      refine ⟨by rw [htec]; exact hsorted, ?_, ?_, ?_, fun _ => rfl,
        by rw [htec]; exact hundo⟩
      · intro s hs s' hs1 hs2
        have hsle : s ≤ 2 := by
          rw [htec] at hs
          obtain ⟨b, hbm, hbs⟩ := hmemB s hs
          fin_cases hbm <;> simp at hbs <;> omega
        have hseq : s' = 1 := by omega
        rw [hseq]
        exact htag1
      · intro hc
        exact Option.noConfusion hc
      · intro e he
        refine ⟨2, e2, ?_, ?_, (Option.some.inj he).symm, htag2, ?_⟩
        · omega
        · omega
        · intro s hs
          rw [htec] at hs
          obtain ⟨b, hbm, hbs⟩ := hmemB s hs
          fin_cases hbm <;> simp at hbs <;> omega
  | none =>
  cases fnArn with
  | none => simp at h
  | some fnArnVal =>
  rcases h3 : EnsureLogGroup lc.FunctionName 14 w2 with
    _ | ⟨⟨logGroup, gerr⟩, w3, t3⟩
  · simp only [h3] at h
    exact Option.noConfusion h
  · have hr3 := EnsureLogGroup_some_trace lc.FunctionName 14 w2
      (logGroup, gerr) w3 t3 h3
    have ht3 : TraceOk 3 t3 := hr3.1
    have hm3 : Op.opCreateLogGroup ("/aws/lambda/" ++ lc.FunctionName) ∈ t3 :=
      hr3.2
    simp only [h3] at h
    cases gerr with
    | some e3 =>
        simp only [Option.some.injEq, Prod.mk.injEq] at h
        obtain ⟨⟨hrec, herr⟩, hw, htr⟩ := h
        subst htr; subst hrec; subst herr
        have hb1 : ∀ b ∈ [((1:Nat), t1), (2, t2), (3, t3)],
            TraceOk b.1 b.2 := by
          intro b hb
          fin_cases hb
          · exact ht1
          · exact ht2
          · exact ht3
        have hpw : List.Pairwise (fun a b => a.1 ≤ b.1)
            [((1:Nat), t1), (2, t2), (3, t3)] := by
          simp [List.pairwise_cons]
        obtain ⟨hsorted, hundo, hmemB⟩ := catBlocks_ok _ hb1 hpw
        have htec : t1 ++ t2 ++ t3 =
            catBlocks [((1:Nat), t1), (2, t2), (3, t3)] := by
          simp [catBlocks]
        have htag1 : (1:Nat) ∈ (t1 ++ t2 ++ t3).filterMap opTag :=
          List.mem_filterMap.mpr
            ⟨Op.opGetRole (lc.FunctionName ++ "-execution-role"),
              by simp only [List.mem_append]; tauto, rfl⟩
        have htag2 : (2:Nat) ∈ (t1 ++ t2 ++ t3).filterMap opTag :=
          List.mem_filterMap.mpr ⟨Op.opReadFile lc.ZipPath,
            by simp only [List.mem_append]; tauto, rfl⟩
        have htag3 : (3:Nat) ∈ (t1 ++ t2 ++ t3).filterMap opTag :=
          List.mem_filterMap.mpr
            ⟨Op.opCreateLogGroup ("/aws/lambda/" ++ lc.FunctionName),
              by simp only [List.mem_append]; tauto, rfl⟩
        refine ⟨by rw [htec]; exact hsorted, ?_, ?_, ?_, fun _ => rfl,
          by rw [htec]; exact hundo⟩
        · intro s hs s' hs1 hs2
          have hsle : s ≤ 3 := by
            rw [htec] at hs
            obtain ⟨b, hbm, hbs⟩ := hmemB s hs
            fin_cases hbm <;> simp at hbs <;> omega
          have hup : s' ≤ 2 := by omega
          interval_cases s'
          · exact htag1
          · exact htag2
        · intro hc
          exact Option.noConfusion hc
        · intro e he
          refine ⟨3, e3, ?_, ?_, (Option.some.inj he).symm, htag3, ?_⟩
          · omega
          · omega
          · intro s hs
            rw [htec] at hs
            obtain ⟨b, hbm, hbs⟩ := hmemB s hs
            fin_cases hbm <;> simp at hbs <;> omega
    | none =>
    rcases h4 : AddPermission lc.FunctionName ("apigateway-" ++ apiID) w3 with
      ⟨aerr, w4, t4⟩
    have ht4eq : t4 = [Op.opAddPermission lc.FunctionName
        ("apigateway-" ++ ("apigateway-" ++ apiID))] := by
      have h0 := AddPermission_trace lc.FunctionName
        ("apigateway-" ++ apiID) w3
      rw [h4] at h0
      exact h0
    have ht4 : TraceOk 4 t4 := by
      rw [ht4eq]
      exact traceOk_single (Or.inl rfl) rfl
    have hm4 : Op.opAddPermission lc.FunctionName
        ("apigateway-" ++ ("apigateway-" ++ apiID)) ∈ t4 := by
      rw [ht4eq]
      simp
    simp only [h4] at h
    cases aerr with
    | some e4 =>
        simp only [Option.some.injEq, Prod.mk.injEq] at h
        obtain ⟨⟨hrec, herr⟩, hw, htr⟩ := h
        subst htr; subst hrec; subst herr
        have hb1 : ∀ b ∈ [((1:Nat), t1), (2, t2), (3, t3), (4, t4)],
            TraceOk b.1 b.2 := by
          intro b hb
          fin_cases hb
          · exact ht1
          · exact ht2
          · exact ht3
          · exact ht4
        have hpw : List.Pairwise (fun a b => a.1 ≤ b.1)
            [((1:Nat), t1), (2, t2), (3, t3), (4, t4)] := by
          simp [List.pairwise_cons]
        obtain ⟨hsorted, hundo, hmemB⟩ := catBlocks_ok _ hb1 hpw
        have htec : t1 ++ t2 ++ t3 ++ t4 =
            catBlocks [((1:Nat), t1), (2, t2), (3, t3), (4, t4)] := by
          simp [catBlocks]
        have htag1 : (1:Nat) ∈ (t1 ++ t2 ++ t3 ++ t4).filterMap opTag :=
          List.mem_filterMap.mpr
            ⟨Op.opGetRole (lc.FunctionName ++ "-execution-role"),
              by simp only [List.mem_append]; tauto, rfl⟩
        have htag2 : (2:Nat) ∈ (t1 ++ t2 ++ t3 ++ t4).filterMap opTag :=
          List.mem_filterMap.mpr ⟨Op.opReadFile lc.ZipPath,
            by simp only [List.mem_append]; tauto, rfl⟩
        have htag3 : (3:Nat) ∈ (t1 ++ t2 ++ t3 ++ t4).filterMap opTag :=
          List.mem_filterMap.mpr
            ⟨Op.opCreateLogGroup ("/aws/lambda/" ++ lc.FunctionName),
              by simp only [List.mem_append]; tauto, rfl⟩
        have htag4 : (4:Nat) ∈ (t1 ++ t2 ++ t3 ++ t4).filterMap opTag :=
          List.mem_filterMap.mpr
            ⟨Op.opAddPermission lc.FunctionName
                ("apigateway-" ++ ("apigateway-" ++ apiID)),
              by simp only [List.mem_append]; tauto, rfl⟩
        refine ⟨by rw [htec]; exact hsorted, ?_, ?_, ?_, fun _ => rfl,
          by rw [htec]; exact hundo⟩
        · intro s hs s' hs1 hs2
          have hsle : s ≤ 4 := by
            rw [htec] at hs
            obtain ⟨b, hbm, hbs⟩ := hmemB s hs
            fin_cases hbm <;> simp at hbs <;> omega
          have hup : s' ≤ 3 := by omega
          interval_cases s'
          · exact htag1
          · exact htag2
          · exact htag3
        · intro hc
          exact Option.noConfusion hc
        · intro e he
          refine ⟨4, e4, ?_, ?_, (Option.some.inj he).symm, htag4, ?_⟩
          · omega
          · omega
          · intro s hs
            rw [htec] at hs
            obtain ⟨b, hbm, hbs⟩ := hmemB s hs
            fin_cases hbm <;> simp at hbs <;> omega
    | none =>
    rcases h5 : EnsureRoutesAndDeploy apiID stage fnArnVal lc.FunctionName
      modelRegion routes w4 with ⟨⟨apigwState, werr⟩, w5, t5⟩
    have hr5 := EnsureRoutesAndDeploy_traceOk apiID stage fnArnVal
      lc.FunctionName modelRegion routes w4
    rw [h5] at hr5
    have ht5 : TraceOk 5 t5 := hr5.1
    have hm5 : Op.opGetResources apiID ∈ t5 := hr5.2
    have hb1 : ∀ b ∈ [((1:Nat), t1), (2, t2), (3, t3), (4, t4), (5, t5)],
        TraceOk b.1 b.2 := by
      intro b hb
      fin_cases hb
      · exact ht1
      · exact ht2
      · exact ht3
      · exact ht4
      · exact ht5
    have hpw : List.Pairwise (fun a b => a.1 ≤ b.1)
        [((1:Nat), t1), (2, t2), (3, t3), (4, t4), (5, t5)] := by
      simp [List.pairwise_cons]
    obtain ⟨hsorted, hundo, hmemB⟩ := catBlocks_ok _ hb1 hpw
    have htec : t1 ++ t2 ++ t3 ++ t4 ++ t5 =
        catBlocks [((1:Nat), t1), (2, t2), (3, t3), (4, t4), (5, t5)] := by
      simp [catBlocks]
    have htag1 : (1:Nat) ∈ (t1 ++ t2 ++ t3 ++ t4 ++ t5).filterMap opTag :=
      List.mem_filterMap.mpr
        ⟨Op.opGetRole (lc.FunctionName ++ "-execution-role"),
          by simp only [List.mem_append]; tauto, rfl⟩
    have htag2 : (2:Nat) ∈ (t1 ++ t2 ++ t3 ++ t4 ++ t5).filterMap opTag :=
      List.mem_filterMap.mpr ⟨Op.opReadFile lc.ZipPath,
        by simp only [List.mem_append]; tauto, rfl⟩
    have htag3 : (3:Nat) ∈ (t1 ++ t2 ++ t3 ++ t4 ++ t5).filterMap opTag :=
      List.mem_filterMap.mpr
        ⟨Op.opCreateLogGroup ("/aws/lambda/" ++ lc.FunctionName),
          by simp only [List.mem_append]; tauto, rfl⟩
    have htag4 : (4:Nat) ∈ (t1 ++ t2 ++ t3 ++ t4 ++ t5).filterMap opTag :=
      List.mem_filterMap.mpr
        ⟨Op.opAddPermission lc.FunctionName
            ("apigateway-" ++ ("apigateway-" ++ apiID)),
          by simp only [List.mem_append]; tauto, rfl⟩
    have htag5 : (5:Nat) ∈ (t1 ++ t2 ++ t3 ++ t4 ++ t5).filterMap opTag :=
      List.mem_filterMap.mpr ⟨Op.opGetResources apiID,
        by simp only [List.mem_append]; tauto, rfl⟩
    simp only [h5] at h
    cases apigwState with
    | none =>
        cases werr with
        | some e5 =>
            simp only [Option.some.injEq, Prod.mk.injEq] at h
            obtain ⟨⟨hrec, herr⟩, hw, htr⟩ := h
            subst htr; subst hrec; subst herr
            refine ⟨by rw [htec]; exact hsorted, ?_, ?_, ?_, fun _ => rfl,
              by rw [htec]; exact hundo⟩
            · intro s hs s' hs1 hs2
              have hsle : s ≤ 5 := by
                rw [htec] at hs
                obtain ⟨b, hbm, hbs⟩ := hmemB s hs
                fin_cases hbm <;> simp at hbs <;> omega
              have hup : s' ≤ 4 := by omega
              interval_cases s'
              · exact htag1
              · exact htag2
              · exact htag3
              · exact htag4
            · intro hc
              exact Option.noConfusion hc
            · intro e he
              refine ⟨5, e5, ?_, ?_, (Option.some.inj he).symm, htag5, ?_⟩
              · omega
              · omega
              · intro s hs
                rw [htec] at hs
                obtain ⟨b, hbm, hbs⟩ := hmemB s hs
                fin_cases hbm <;> simp at hbs <;> omega
        | none => simp at h
    | some st =>
        cases werr with
        | some e5 =>
            simp only [Option.some.injEq, Prod.mk.injEq] at h
            obtain ⟨⟨hrec, herr⟩, hw, htr⟩ := h
            subst htr; subst hrec; subst herr
            refine ⟨by rw [htec]; exact hsorted, ?_, ?_, ?_, fun _ => rfl,
              by rw [htec]; exact hundo⟩
            · intro s hs s' hs1 hs2
              have hsle : s ≤ 5 := by
                rw [htec] at hs
                obtain ⟨b, hbm, hbs⟩ := hmemB s hs
                fin_cases hbm <;> simp at hbs <;> omega
              have hup : s' ≤ 4 := by omega
              interval_cases s'
              · exact htag1
              · exact htag2
              · exact htag3
              · exact htag4
            · intro hc
              exact Option.noConfusion hc
            · intro e he
              refine ⟨5, e5, ?_, ?_, (Option.some.inj he).symm, htag5, ?_⟩
              · omega
              · omega
              · intro s hs
                rw [htec] at hs
                obtain ⟨b, hbm, hbs⟩ := hmemB s hs
                fin_cases hbm <;> simp at hbs <;> omega
        | none =>
            simp only [Option.some.injEq, Prod.mk.injEq] at h
            obtain ⟨⟨hrec, herr⟩, hw, htr⟩ := h
            subst htr; subst hrec; subst herr
            refine ⟨by rw [htec]; exact hsorted, ?_, ?_, ?_, ?_,
              by rw [htec]; exact hundo⟩
            · intro s hs s' hs1 hs2
              have hsle : s ≤ 5 := by
                rw [htec] at hs
                obtain ⟨b, hbm, hbs⟩ := hmemB s hs
                fin_cases hbm <;> simp at hbs <;> omega
              have hup : s' ≤ 4 := by omega
              interval_cases s'
              · exact htag1
              · exact htag2
              · exact htag3
              · exact htag4
            · intro _ s hs
              fin_cases hs
              · exact htag1
              · exact htag2
              · exact htag3
              · exact htag4
              · exact htag5
            · intro e he
              exact Option.noConfusion he
            · intro hne
              exact absurd rfl hne

theorem EnsureDeployment_stage_order_witness :
    ((ensureOpsOf "api1" "dev" lc0 routesC4 w0).filterMap opTag).Pairwise
      (· ≤ ·) ∧
    (∀ op ∈ ensureOpsOf "api1" "dev" lc0 routesC4 w0,
      isUndoOp op = false) := by
  have h := EnsureDeployment_stage_order "api1" "dev" lc0 routesC4 w0
    (ensureRecOf "api1" "dev" lc0 routesC4 w0)
    (ensureErrOf "api1" "dev" lc0 routesC4 w0)
    (ensureWorldOf "api1" "dev" lc0 routesC4 w0)
    (ensureOpsOf "api1" "dev" lc0 routesC4 w0) (by rfl)
  exact ⟨h.1, h.2.2.2.2.2⟩
